import Mathlib

/-!
Verification development for the CRM campaign engine
(`app/services/campaign_service.py`, `app/services/scheduler_service.py`,
`app/routers/tracking.py`, `app/routers/schedules.py`,
`app/routers/campaigns.py`).

The Python code is embedded shallowly: database rows become Lean
structures, SQLAlchemy queries become list operations over an explicit
`Db` state, and the two external effect sources are modelled as oracles
passed in as parameters:
  * the Gmail mailer (`email_service.send_email`) as a function from the
    destination address to a `MailOutcome`;
  * the `uuid.uuid4()` stream used for tracking codes as a function
    `Nat → String` consumed left to right with an explicit counter.
`datetime.now()` values are passed in as explicit `Nat` timestamps.
A raised Python exception that would abort an endpoint before its commit
is modelled as `Except.error` (the uncommitted session is rolled back, so
the pre-call state is what persists).
-/

deriving instance DecidableEq for Except

namespace CRM

/-! ### Data model (src/app/models/db_models.py) -/

structure Customer where
  id : Nat
  name : String
  email : Option String
  deriving Repr, DecidableEq

structure Course where
  id : Nat
  name : String
  courseType : String
  deriving Repr, DecidableEq

structure ActivityParticipation where
  id : Nat
  customerId : Nat
  courseId : Nat
  purchased : Bool
  deriving Repr, DecidableEq

structure Campaign where
  id : Nat
  name : String
  subject : String
  content : String
  courseTypeFilter : String := "all"
  purchaseStatusFilter : String := "all"
  status : String := "draft"
  scheduledAt : Option Nat := none
  sentAt : Option Nat := none
  totalRecipients : Nat := 0
  sentCount : Nat := 0
  failedCount : Nat := 0
  deriving Repr, DecidableEq

structure CampaignRecipient where
  id : Nat
  campaignId : Nat
  customerId : Option Nat := none
  email : Option String := none
  name : Option String := none
  sent : Bool := false
  sentAt : Option Nat := none
  errorMessage : Option String := none
  clicked : Bool := false
  clickedAt : Option Nat := none
  deriving Repr, DecidableEq

structure TrackedLink where
  id : Nat
  campaignId : Nat
  trackingCode : String
  originalUrl : String
  clickCount : Nat := 0
  deriving Repr, DecidableEq

structure LinkClick where
  trackedLinkId : Nat
  recipientId : Option Int := none
  clickedAt : Nat
  ipAddress : Option String := none
  userAgent : Option String := none
  deriving Repr, DecidableEq

structure ScheduledTask where
  id : Nat
  taskType : String
  referenceId : Option Nat := none
  jobId : String
  scheduledAt : Option Nat := none
  description : Option String := none
  isRecurring : Bool := false
  cronExpression : Option String := none
  taskParams : Option String := none
  status : String := "pending"
  deriving Repr, DecidableEq

/-- The relational state touched by the campaign engine. -/
structure Db where
  customers : List Customer := []
  courses : List Course := []
  participations : List ActivityParticipation := []
  campaigns : List Campaign := []
  recipients : List CampaignRecipient := []
  trackedLinks : List TrackedLink := []
  linkClicks : List LinkClick := []
  tasks : List ScheduledTask := []
  deriving Repr, DecidableEq

/-- Embedding of `Result.scalar_one_or_none()`: `none` for an empty result set, the row
for a singleton, and a raised `MultipleResultsFound` otherwise. -/
def scalarOneOrNone {α : Type} : List α → Except String (Option α)
  | [] => .ok none
  | [a] => .ok (some a)
  | _ => .error "MultipleResultsFound"

/-! ### Python string primitives
The `str` methods the engine uses (`startswith`, `lower`, `strip`,
`split`, `replace`, the `split("@")[0]` idiom) re-implemented structurally
over the character list, so concrete runs reduce inside the kernel. -/

/-- Python `s.startswith(p)`. -/
def pyStartsWith (s p : String) : Bool := p.data.isPrefixOf s.data

/-- Python `s.lower()` (ASCII case folding, as applied to email strings). -/
def pyLower (s : String) : String := String.mk (s.data.map Char.toLower)

/-- Python `s.strip()`. -/
def pyStrip (s : String) : String :=
  String.mk (((s.data.dropWhile Char.isWhitespace).reverse.dropWhile Char.isWhitespace).reverse)

/-- Python `email.split("@")[0]`: the local part before the first `@`. -/
def emailLocalPart (email : String) : String :=
  String.mk (email.data.takeWhile (fun c => c != '@'))

/-- Python `s.replace(old, new)` for a non-empty `old`, with fuel (ample
whenever it is at least the length of `s`): all non-overlapping
occurrences, left to right, replacement text not rescanned. -/
def pyReplaceF (pat rep : List Char) : Nat → List Char → List Char
  | 0, s => s
  | fuel + 1, s =>
    match s with
    | [] => []
    | c :: cs =>
      if pat.isPrefixOf (c :: cs) then rep ++ pyReplaceF pat rep fuel ((c :: cs).drop pat.length)
      else c :: pyReplaceF pat rep fuel cs

/-- Python `s.replace(old, new)`. -/
def pyReplace (s pat rep : String) : String :=
  String.mk (pyReplaceF pat.data rep.data s.data.length s.data)

/-- Accumulator loop of Python `s.split()` (no separator argument): runs of
whitespace separate the fields and produce no empty strings. -/
def pySplitFields : List Char → List Char → List String
  | [], acc => if acc.isEmpty then [] else [String.mk acc.reverse]
  | c :: cs, acc =>
    if c.isWhitespace then
      if acc.isEmpty then pySplitFields cs []
      else String.mk acc.reverse :: pySplitFields cs []
    else pySplitFields cs (c :: acc)

/-! ### Content tracking rewriter
(`CampaignService.generate_tracking_code`,
`CampaignService.process_content_with_tracking`) -/

/-- Python `str(uuid.uuid4())[:8]` applied to one draw `uuid` from the random
uuid stream. -/
def generate_tracking_code (uuid : String) : String :=
  String.mk (uuid.data.take 8)

/-- The character class `["\']` of the link regex. -/
def isQuote (c : Char) : Bool := c == '"' || c == Char.ofNat 39

/-- The prefixes skipped by `process_content_with_tracking`. -/
def skipPrefixes : List String := ["mailto:", "#", "tel:", "javascript:"]

def isSkipUrl (url : String) : Bool := skipPrefixes.any (fun p => pyStartsWith url p)

/-- The tracking url `f"{base_url}/t/{tracking_code}?r={recipient_id}"`. -/
def trackingUrl (baseUrl code : String) (recipientId : Nat) : String :=
  baseUrl ++ "/t/" ++ code ++ "?r=" ++ toString recipientId

/-- The replacement text `href="{tracking_url}"` emitted for a rewritten link. -/
def hrefReplacement (baseUrl code : String) (recipientId : Nat) : String :=
  "href=" ++ "\"" ++ trackingUrl baseUrl code recipientId ++ "\""

/-- One pending `TrackedLink` creation, as accumulated in the
`tracked_links` list of dicts. -/
structure TrackedLinkData where
  trackingCode : String
  originalUrl : String
  campaignId : Nat
  deriving Repr, DecidableEq

/-- One attempt of the regex `href=["\']([^"\']+)["\']` at the head of the
character list: on success returns the captured url, the exact matched text
(`match.group(0)`) and the remaining characters. -/
def matchHref (s : List Char) : Option (String × List Char × List Char) :=
  match s with
  | 'h' :: 'r' :: 'e' :: 'f' :: '=' :: q :: s1 =>
    if isQuote q then
      let run := s1.takeWhile (fun c => !isQuote c)
      match s1.dropWhile (fun c => !isQuote c) with
      | q2 :: rest =>
        if run.isEmpty then none
        else some (String.mk run, 'h' :: 'r' :: 'e' :: 'f' :: '=' :: q :: (run ++ [q2]), rest)
      | [] => none
    else none
  | _ => none

/-- The `re.sub` scan with an explicit fuel (the fuel never runs out when it is
at least the length of the scanned text; see `processLoopF_fuel`). `n` is
the position in the uuid stream; the result is the rewritten text, the
emitted `TrackedLink` creations in order, and the new stream position. -/
def processLoopF (uuid : Nat → String) (campaignId recipientId : Nat) (baseUrl : String) :
    Nat → List Char → Nat → List Char × List TrackedLinkData × Nat
  | 0, _, n => ([], [], n)
  | fuel + 1, s, n =>
    match matchHref s with
    | some (url, consumed, rest) =>
      if isSkipUrl url then
        let r := processLoopF uuid campaignId recipientId baseUrl fuel rest n
        (consumed ++ r.1, r.2)
      else
        let code := generate_tracking_code (uuid n)
        let r := processLoopF uuid campaignId recipientId baseUrl fuel rest (n + 1)
        ((hrefReplacement baseUrl code recipientId).data ++ r.1,
          ⟨code, url, campaignId⟩ :: r.2.1, r.2.2)
    | none =>
      match s with
      | [] => ([], [], n)
      | c :: cs =>
        let r := processLoopF uuid campaignId recipientId baseUrl fuel cs n
        (c :: r.1, r.2)

/-- The `re.sub` scan over a character list. -/
def processLoop (uuid : Nat → String) (campaignId recipientId : Nat) (baseUrl : String)
    (s : List Char) (n : Nat) : List Char × List TrackedLinkData × Nat :=
  processLoopF uuid campaignId recipientId baseUrl s.length s n

/-- Embedding of `CampaignService.process_content_with_tracking`, with the uuid stream
and its position made explicit. -/
def process_content_with_tracking (uuid : Nat → String) (content : String)
    (campaignId recipientId : Nat) (baseUrl : String) (n : Nat) :
    String × List TrackedLinkData × Nat :=
  let r := processLoop uuid campaignId recipientId baseUrl content.data n
  (String.mk r.1, r.2)

/-! ### Recipient resolver
(`CampaignService.get_filtered_customers`, `CampaignService.create_campaign`) -/

/-- The `course_type_map` dictionary lookup. -/
def courseTypeMap (s : String) : Option String :=
  if s = "complete" then some "完整課程"
  else if s = "experience" then some "體驗課程"
  else none

/-- Whether one `ActivityParticipation` row survives the subquery's inner
join with `Course` and its two optional where-clauses. An unmapped
non-`all` course filter adds no clause (the `if course_type:` guard). -/
def participationMatches (courses : List Course) (ctf psf : String)
    (p : ActivityParticipation) : Bool :=
  match courses.find? (fun c => c.id == p.courseId) with
  | none => false
  | some c =>
    (if ctf = "all" then true
     else match courseTypeMap ctf with
       | some t => c.courseType == t
       | none => true)
    && (if psf = "purchased" then p.purchased
        else if psf = "not_purchased" then !p.purchased
        else true)

/-- Embedding of `CampaignService.get_filtered_customers`: customers with a non-NULL
email, restricted (unless both filters are `all`) to those whose id occurs
in the joined participation subquery. -/
def get_filtered_customers (db : Db) (ctf psf : String) : List Customer :=
  if ctf = "all" && psf = "all" then
    db.customers.filter (fun c => c.email.isSome)
  else
    db.customers.filter (fun c =>
      c.email.isSome &&
      db.participations.any (fun p =>
        p.customerId == c.id && participationMatches db.courses ctf psf p))

/-- A fresh autoincrement primary key. -/
def newId (ids : List Nat) : Nat := ids.foldr (fun i m => max (i + 1) m) 1

/-- The mutable accumulators of `create_campaign`: the recipient rows added
so far, the `added_customer_ids` and `added_emails` sets, the
`total_recipients` counter, and the next recipient primary key. -/
structure AddAcc where
  rows : List CampaignRecipient := []
  addedC : List Nat := []
  addedE : List String := []
  total : Nat := 0
  rid : Nat
  deriving Repr, DecidableEq

/-- Steps 1 and 2 of `create_campaign`: add each customer of the list as a
recipient keyed by customer id unless its id is already in
`added_customer_ids`. -/
def addByCustomer (cid : Nat) : List Customer → AddAcc → AddAcc
  | [], acc => acc
  | c :: cs, acc =>
    if acc.addedC.contains c.id then addByCustomer cid cs acc
    else
      addByCustomer cid cs
        { acc with
          rows := acc.rows ++ [{ id := acc.rid, campaignId := cid, customerId := some c.id }],
          addedC := c.id :: acc.addedC,
          total := acc.total + 1,
          rid := acc.rid + 1 }

/-- Step 3 of `create_campaign`: ad-hoc emails, normalized by
`.strip().lower()`.  The customer lookup is `scalar_one_or_none`, so two
stored customers with the same email raise (modelled as `.error`). -/
def addByEmail (customers : List Customer) (cid : Nat) :
    List String → AddAcc → Except String AddAcc
  | [], acc => .ok acc
  | e :: es, acc =>
    let email := pyLower (pyStrip e)
    if email ≠ "" && !acc.addedE.contains email then
      match scalarOneOrNone (customers.filter (fun c => c.email == some email)) with
      | .error m => .error m
      | .ok (some c) =>
        if acc.addedC.contains c.id then
          addByEmail customers cid es acc
        else
          addByEmail customers cid es
            { acc with
              rows := acc.rows ++ [{ id := acc.rid, campaignId := cid, customerId := some c.id }],
              addedC := c.id :: acc.addedC,
              addedE := email :: acc.addedE,
              total := acc.total + 1,
              rid := acc.rid + 1 }
      | .ok none =>
        addByEmail customers cid es
          { acc with
            rows := acc.rows ++ [{ id := acc.rid, campaignId := cid, email := some email,
                                   name := some (emailLocalPart email) }],
            addedE := email :: acc.addedE,
            total := acc.total + 1,
            rid := acc.rid + 1 }
    else addByEmail customers cid es acc

/-- Step 1 of `create_campaign`: the filter-derived customers, when
`use_filter` is set. -/
def createStep1 (db : Db) (ctf psf : String) (useFilter : Bool) (cid : Nat)
    (acc : AddAcc) : AddAcc :=
  if useFilter then addByCustomer cid (get_filtered_customers db ctf psf) acc else acc

/-- Step 2 of `create_campaign`: the explicitly listed customer ids (the
argument is falsy when `None` or empty). -/
def createStep2 (db : Db) (customerIds : List Nat) (cid : Nat) (acc : AddAcc) : AddAcc :=
  if customerIds ≠ [] then
    addByCustomer cid (db.customers.filter (fun c => customerIds.contains c.id)) acc
  else acc

/-- Step 3 of `create_campaign`: the ad-hoc emails. -/
def createStep3 (db : Db) (additionalEmails : List String) (cid : Nat) (acc : AddAcc) :
    Except String AddAcc :=
  if additionalEmails ≠ [] then addByEmail db.customers cid additionalEmails acc
  else .ok acc

/-- The recipient accumulation of `create_campaign`, all three steps over
the initially empty accumulators. -/
def create_campaign_acc (db : Db) (ctf psf : String) (customerIds : List Nat)
    (additionalEmails : List String) (useFilter : Bool) (cid : Nat) : Except String AddAcc :=
  createStep3 db additionalEmails cid
    (createStep2 db customerIds cid
      (createStep1 db ctf psf useFilter cid
        { rid := newId (db.recipients.map (fun r => r.id)) }))

/-- Embedding of `CampaignService.create_campaign`.  `customerIds = []` and
`additionalEmails = []` model the falsy `None`/empty arguments.  Returns
the stored campaign, the recipient rows created for it, and the new state. -/
def create_campaign (db : Db) (name subject content ctf psf : String)
    (customerIds : List Nat) (additionalEmails : List String) (useFilter : Bool) :
    Except String (Campaign × List CampaignRecipient × Db) :=
  let cid := newId (db.campaigns.map (fun c => c.id))
  match create_campaign_acc db ctf psf customerIds additionalEmails useFilter cid with
  | .error m => .error m
  | .ok acc3 =>
    let camp : Campaign :=
      { id := cid, name := name, subject := subject, content := content,
        courseTypeFilter := ctf, purchaseStatusFilter := psf, status := "draft",
        totalRecipients := acc3.total }
    .ok (camp, acc3.rows,
      { db with campaigns := db.campaigns ++ [camp],
                recipients := db.recipients ++ acc3.rows })

/-- The normalized effective email of a recipient row, used to state the
§3 recipient-uniqueness invariant: the linked customer's stored email when
the row is customer-keyed, the bare email otherwise, trimmed and
lower-cased. -/
def normalizedEffectiveEmail (customers : List Customer) (r : CampaignRecipient) :
    Option String :=
  let base : Option String :=
    match r.customerId.bind (fun cid => customers.find? (fun c => c.id == cid)) with
    | some c => c.email
    | none => r.email
  base.map (fun s => pyLower (pyStrip s))

/-! ### Delivery executor (`CampaignService.send_campaign`) -/

/-- Outcome of one `email_service.send_email` call: the returned dict has
`success = True`, or `success = False` with an optional `error` entry, or
the call raises.  The mailer is an external oracle; its outcome is
modelled as a function of the destination address. -/
inductive MailOutcome
  | success
  | failure (err : Option String)
  | exn (msg : String)
  deriving Repr, DecidableEq

abbrev Mailer := String → MailOutcome

/-- The `recipient.customer` relationship. -/
def recipientCustomer (customers : List Customer) (r : CampaignRecipient) :
    Option Customer :=
  r.customerId.bind (fun cid => customers.find? (fun c => c.id == cid))

/-- The effective destination address of a recipient. -/
def effectiveEmail (customers : List Customer) (r : CampaignRecipient) : Option String :=
  match recipientCustomer customers r with
  | some c => c.email
  | none => r.email

/-- The effective display name of a recipient (`"收件人"` when missing). -/
def effectiveName (customers : List Customer) (r : CampaignRecipient) : String :=
  match recipientCustomer customers r with
  | some c => c.name
  | none => r.name.getD "收件人"

/-- The check `if not recipient_email:` — both `None` and `""` are unusable. -/
def usableEmail (e : Option String) : Option String :=
  match e with
  | some s => if s = "" then none else some s
  | none => none

/-- Result of one recipient iteration of the send loop. -/
structure StepResult where
  recipient : CampaignRecipient
  links : List TrackedLinkData
  sentInc : Nat
  failedInc : Nat
  uuidCounter : Nat
  deriving Repr, DecidableEq

/-- One iteration of the `for recipient in campaign.recipients:` loop:
skip already-sent rows; fail rows without a usable address; otherwise
personalize, rewrite links (persisting the produced `TrackedLink`s even if
the mail then fails) and invoke the mailer. -/
def sendStepRecipient (mailer : Mailer) (uuid : Nat → String)
    (customers : List Customer) (camp : Campaign) (baseUrl : String) (now : Nat)
    (r : CampaignRecipient) (n : Nat) : StepResult :=
  if r.sent then ⟨r, [], 0, 0, n⟩
  else
    match usableEmail (effectiveEmail customers r) with
    | none => ⟨{ r with errorMessage := some "無效的 Email" }, [], 0, 1, n⟩
    | some addr =>
      let personalized := pyReplace camp.content "\x7b\x7bname\x7d\x7d" (effectiveName customers r)
      let pc := process_content_with_tracking uuid personalized camp.id r.id baseUrl n
      match mailer addr with
      | .success => ⟨{ r with sent := true, sentAt := some now }, pc.2.1, 1, 0, pc.2.2⟩
      | .failure err => ⟨{ r with errorMessage := some (err.getD "發送失敗") }, pc.2.1, 0, 1, pc.2.2⟩
      | .exn msg => ⟨{ r with errorMessage := some msg }, pc.2.1, 0, 1, pc.2.2⟩

/-- Accumulated result of the send loop. -/
structure LoopResult where
  recipients : List CampaignRecipient
  links : List TrackedLinkData
  sentCount : Nat
  failedCount : Nat
  uuidCounter : Nat
  deriving Repr, DecidableEq

/-- The send loop over the recipient table: rows of other campaigns pass
through untouched, rows of `camp` are processed in order. -/
def sendLoop (mailer : Mailer) (uuid : Nat → String) (customers : List Customer)
    (camp : Campaign) (baseUrl : String) (now : Nat) :
    List CampaignRecipient → Nat → LoopResult
  | [], n => ⟨[], [], 0, 0, n⟩
  | r :: rs, n =>
    if r.campaignId == camp.id then
      let s := sendStepRecipient mailer uuid customers camp baseUrl now r n
      let t := sendLoop mailer uuid customers camp baseUrl now rs s.uuidCounter
      ⟨s.recipient :: t.recipients, s.links ++ t.links,
        s.sentInc + t.sentCount, s.failedInc + t.failedCount, t.uuidCounter⟩
    else
      let t := sendLoop mailer uuid customers camp baseUrl now rs n
      ⟨r :: t.recipients, t.links, t.sentCount, t.failedCount, t.uuidCounter⟩

/-- The dict returned by `send_campaign`. -/
structure SendResult where
  success : Bool
  error : Option String := none
  sentCount : Nat := 0
  failedCount : Nat := 0
  total : Nat := 0
  deriving Repr, DecidableEq

/-- Mutate the first campaign row with the given primary key (the ORM
mutates the single object returned by the lookup). -/
def updateFirstCampaign : List Campaign → Nat → (Campaign → Campaign) → List Campaign
  | [], _, _ => []
  | c :: cs, cid, f =>
    if c.id == cid then f c :: cs else c :: updateFirstCampaign cs cid f

/-- Materialize the `TrackedLink` rows accumulated during a send, with
fresh autoincrement primary keys starting above `base`. -/
def mkLinkRows (base : Nat) (ls : List TrackedLinkData) : List TrackedLink :=
  ls.mapIdx (fun i l =>
    { id := base + 1 + i, campaignId := l.campaignId,
      trackingCode := l.trackingCode, originalUrl := l.originalUrl, clickCount := 0 })

/-- The first committed phase of `send_campaign`: `status = "sending"`,
`sent_at = now`. -/
def send_campaign_begin (db : Db) (campaignId now : Nat) : Db :=
  let camps := updateFirstCampaign db.campaigns campaignId
    (fun c => { c with status := "sending", sentAt := some now })
  { db with campaigns := camps }

/-- The loop and final commit of `send_campaign`: per-recipient outcomes,
then `status = "completed"` with the counters of this invocation. -/
def send_campaign_finish (mailer : Mailer) (uuid : Nat → String) (db : Db)
    (camp : Campaign) (baseUrl : String) (now n : Nat) : SendResult × Db × Nat :=
  let lr := sendLoop mailer uuid db.customers camp baseUrl now db.recipients n
  let finishRow : Campaign → Campaign := fun c =>
    { c with status := "completed", sentCount := lr.sentCount, failedCount := lr.failedCount }
  let camps := updateFirstCampaign db.campaigns camp.id finishRow
  let links := db.trackedLinks ++ mkLinkRows db.trackedLinks.length lr.links
  ({ success := true, sentCount := lr.sentCount, failedCount := lr.failedCount,
     total := camp.totalRecipients },
   { db with recipients := lr.recipients, trackedLinks := links, campaigns := camps },
   lr.uuidCounter)

/-- Embedding of `CampaignService.send_campaign`. -/
def send_campaign (mailer : Mailer) (uuid : Nat → String) (db : Db)
    (campaignId : Nat) (baseUrl : String) (now n : Nat) : SendResult × Db × Nat :=
  match db.campaigns.find? (fun c => c.id == campaignId) with
  | none => ({ success := false, error := some "活動不存在" }, db, n)
  | some camp =>
    if camp.status == "draft" || camp.status == "scheduled" then
      send_campaign_finish mailer uuid (send_campaign_begin db campaignId now)
        camp baseUrl now n
    else
      ({ success := false, error := some ("活動狀態不正確: " ++ camp.status) }, db, n)

/-! ### Click collector (`app/routers/tracking.py`, `track_click`) -/

/-- A `RedirectResponse`. -/
structure Redirect where
  url : String
  statusCode : Nat := 302
  deriving Repr, DecidableEq

/-- Python truthiness of the `r: int = None` query parameter:
`None` and `0` are falsy. -/
def pyTruthyInt : Option Int → Bool
  | none => false
  | some v => v != 0

/-- Embedding of `track_click`: look up the `TrackedLink` by code (redirecting home when
absent), append a `LinkClick`, bump `click_count`, and flag the recipient
on its first click.  `.error` models a raised `MultipleResultsFound`
(the request fails and the uncommitted session is discarded). -/
def track_click (db : Db) (trackingCode : String) (r : Option Int) (now : Nat)
    (ip ua : Option String) : Except String (Redirect × Db) :=
  match scalarOneOrNone (db.trackedLinks.filter (fun l => l.trackingCode == trackingCode)) with
  | .error m => .error m
  | .ok none => .ok ({ url := "/" }, db)
  | .ok (some link) =>
    let click : LinkClick :=
      { trackedLinkId := link.id, recipientId := r, clickedAt := now,
        ipAddress := ip, userAgent := ua.map (fun s => String.mk (s.data.take 500)) }
    let links := db.trackedLinks.map (fun l =>
      if l.trackingCode == trackingCode then { l with clickCount := l.clickCount + 1 } else l)
    let db1 := { db with linkClicks := db.linkClicks ++ [click], trackedLinks := links }
    if pyTruthyInt r then
      match scalarOneOrNone (db.recipients.filter (fun rec => (rec.id : Int) == r.getD 0)) with
      | .error m => .error m
      | .ok (some rec) =>
        if !rec.clicked then
          let recs := db1.recipients.map (fun x =>
            if x.id == rec.id then { x with clicked := true, clickedAt := some now } else x)
          .ok ({ url := link.originalUrl }, { db1 with recipients := recs })
        else .ok ({ url := link.originalUrl }, db1)
      | .ok none => .ok ({ url := link.originalUrl }, db1)
    else .ok ({ url := link.originalUrl }, db1)

/-! ### Scheduler core (`app/services/scheduler_service.py`) -/

/-- An APScheduler trigger: `DateTrigger(run_date)` or a five-field
`CronTrigger`. -/
inductive Trigger
  | date (runAt : Nat)
  | cron (minute hour day month dayOfWeek : String)
  deriving Repr, DecidableEq

structure Job where
  id : String
  trigger : Trigger
  deriving Repr, DecidableEq

/-- The in-memory job table; `none` models an uninitialized scheduler. -/
abbrev Scheduler := Option (List Job)

/-- The call `add_job(..., replace_existing=True)`: an existing job with the same
id is replaced. -/
def add_job (jobs : List Job) (jobId : String) (t : Trigger) : List Job :=
  jobs.filter (fun j => j.id != jobId) ++ [{ id := jobId, trigger := t }]

/-- Embedding of `SchedulerService.schedule_once`.  Raises (`.error`) only when the
scheduler is uninitialized; the run time is not validated. -/
def schedule_once (sched : Scheduler) (jobId : String) (runAt : Nat) :
    Except String (String × List Job) :=
  match sched with
  | none => .error "Scheduler not initialized"
  | some jobs => .ok (jobId, add_job jobs jobId (.date runAt))

/-- Python `str.split()` with no argument: whitespace-run separated
fields, no empties. -/
def pySplit (s : String) : List String := pySplitFields s.data []

/-- Embedding of `SchedulerService.schedule_recurring`: the cron expression must have
exactly five whitespace-separated fields, otherwise `ValueError` is
raised (`.error`). -/
def schedule_recurring (sched : Scheduler) (jobId : String) (cronExpression : String) :
    Except String (String × List Job) :=
  match sched with
  | none => .error "Scheduler not initialized"
  | some jobs =>
    match pySplit cronExpression with
    | [mi, h, d, mo, dw] => .ok (jobId, add_job jobs jobId (.cron mi h d mo dw))
    | _ => .error "Invalid cron expression. Expected format: 'minute hour day month day_of_week'"

/-- Embedding of `SchedulerService.cancel_job`: remove the job if present; never raises. -/
def cancel_job (sched : Scheduler) (jobId : String) : Bool × Scheduler :=
  match sched with
  | none => (false, none)
  | some jobs =>
    if jobs.any (fun j => j.id == jobId) then
      (true, some (jobs.filter (fun j => j.id != jobId)))
    else (false, some jobs)

/-! ### Restart recovery (`app/routers/schedules.py`, `reload_scheduled_tasks`) -/

/-- Python truthiness of `task.cron_expression` (`None` and `""` falsy). -/
def pyTruthyStr : Option String → Bool
  | none => false
  | some s => s ≠ ""

/-- Whether `json.loads(task.task_params)` succeeds: the JSON parser is
external, so its success is an oracle `jsonOk`; `None` params are not
parsed at all. -/
def paramsParse (jsonOk : String → Bool) : Option String → Bool
  | none => true
  | some s => jsonOk s

/-- One iteration of the reload loop over a `pending` row.  The whole body
runs in a `try:` whose `except` logs and moves on, so a parse failure or a
scheduler exception leaves the row and the job table untouched. -/
def reload_step (jsonOk : String → Bool) (now : Nat) (sched : Scheduler)
    (task : ScheduledTask) : ScheduledTask × Scheduler :=
  if !paramsParse jsonOk task.taskParams then (task, sched)
  else if task.isRecurring && pyTruthyStr task.cronExpression then
    match schedule_recurring sched task.jobId (task.cronExpression.getD "") with
    | .ok (_, jobs) => (task, some jobs)
    | .error _ => (task, sched)
  else
    match task.scheduledAt with
    | some t =>
      if t > now then
        match schedule_once sched task.jobId t with
        | .ok (_, jobs) => (task, some jobs)
        | .error _ => (task, sched)
      else ({ task with status := "missed" }, sched)
    | none => (task, sched)

/-- Embedding of `reload_scheduled_tasks`: every `pending` ledger row is examined once;
rows in any other status are not part of the query. -/
def reload_scheduled_tasks (jsonOk : String → Bool) (now : Nat) :
    List ScheduledTask → Scheduler → List ScheduledTask × Scheduler
  | [], sched => ([], sched)
  | t :: ts, sched =>
    if t.status == "pending" then
      let s := reload_step jsonOk now sched t
      let r := reload_scheduled_tasks jsonOk now ts s.2
      (s.1 :: r.1, r.2)
    else
      let r := reload_scheduled_tasks jsonOk now ts sched
      (t :: r.1, r.2)

/-! ### Schedule and campaign endpoints
(`app/routers/schedules.py`, `app/routers/campaigns.py`) -/

/-- An endpoint reply; `success = false` with an `error` models a raised
`HTTPException` 4xx (nothing of the handler's work is committed). -/
structure ApiResult where
  success : Bool
  error : Option String := none
  jobId : Option String := none
  deriving Repr, DecidableEq

/-- Endpoint `POST /schedules/once` (`create_once_task`).  `parsedAt` is the result
of `datetime.fromisoformat` on the submitted string (`none` = `ValueError`);
`uuidSuffix` the random job-id suffix; `taskParams` the serialized JSON
bundle.  `.error` models the `RuntimeError` of an uninitialized scheduler. -/
def create_once_task (ledger : List ScheduledTask) (sched : Scheduler)
    (taskType description taskParams : String) (parsedAt : Option Nat) (now : Nat)
    (uuidSuffix : String) (newRowId : Nat) :
    Except String (ApiResult × List ScheduledTask × Scheduler) :=
  let jobId := "once_" ++ taskType ++ "_" ++ uuidSuffix
  match parsedAt with
  | none => .ok ({ success := false, error := some "時間格式錯誤，請使用 ISO 格式" }, ledger, sched)
  | some t =>
    if t ≤ now then
      .ok ({ success := false, error := some "排程時間必須是未來時間" }, ledger, sched)
    else
      match schedule_once sched jobId t with
      | .error m => .error m
      | .ok (_, jobs) =>
        let row : ScheduledTask :=
          { id := newRowId, taskType := taskType, jobId := jobId, scheduledAt := some t,
            description := some description, isRecurring := false, cronExpression := none,
            taskParams := some taskParams, status := "pending" }
        .ok ({ success := true, jobId := some jobId }, ledger ++ [row], some jobs)

/-- The update payload of `PUT /campaigns/{id}` (`CampaignUpdate` schema:
`status` is not an updatable field). -/
structure CampaignUpdateFields where
  name : Option String := none
  subject : Option String := none
  content : Option String := none
  courseTypeFilter : Option String := none
  purchaseStatusFilter : Option String := none
  deriving Repr, DecidableEq

/-- Embedding of `CampaignService.update_campaign` restricted to the router's schema
fields; `none` when the campaign is missing or not a draft. -/
def update_campaign (db : Db) (campaignId : Nat) (u : CampaignUpdateFields) : Option Db :=
  match db.campaigns.find? (fun c => c.id == campaignId) with
  | none => none
  | some camp =>
    if camp.status != "draft" then none
    else
      let apply : Campaign → Campaign := fun c =>
        { c with name := u.name.getD c.name, subject := u.subject.getD c.subject,
                 content := u.content.getD c.content,
                 courseTypeFilter := u.courseTypeFilter.getD c.courseTypeFilter,
                 purchaseStatusFilter := u.purchaseStatusFilter.getD c.purchaseStatusFilter }
      some { db with campaigns := updateFirstCampaign db.campaigns campaignId apply }

/-- Remove the first campaign row with the given primary key. -/
def removeFirstCampaign : List Campaign → Nat → List Campaign
  | [], _ => []
  | c :: cs, cid => if c.id == cid then cs else c :: removeFirstCampaign cs cid

/-- Embedding of `CampaignService.delete_campaign` (draft only; recipients and tracked
links cascade). -/
def delete_campaign (db : Db) (campaignId : Nat) : Bool × Db :=
  match db.campaigns.find? (fun c => c.id == campaignId) with
  | none => (false, db)
  | some camp =>
    if camp.status != "draft" then (false, db)
    else
      let recs := db.recipients.filter (fun r => r.campaignId != campaignId)
      let links := db.trackedLinks.filter (fun l => l.campaignId != campaignId)
      (true, { db with campaigns := removeFirstCampaign db.campaigns campaignId,
                       recipients := recs, trackedLinks := links })

/-- Endpoint `POST /campaigns/{id}/schedule` (`schedule_campaign`): draft only,
strictly-future time only; registers job `campaign_{id}` and a pending
ledger row.  `.error` models the uninitialized-scheduler `RuntimeError`
(the status change is then never committed). -/
def schedule_campaign (db : Db) (sched : Scheduler) (campaignId scheduledAt now newTaskId : Nat) :
    Except String (ApiResult × Db × Scheduler) :=
  match db.campaigns.find? (fun c => c.id == campaignId) with
  | none => .ok ({ success := false, error := some "活動不存在" }, db, sched)
  | some camp =>
    if camp.status != "draft" then
      .ok ({ success := false, error := some "只有草稿狀態的活動可以排程" }, db, sched)
    else if scheduledAt ≤ now then
      .ok ({ success := false, error := some "排程時間必須是未來時間" }, db, sched)
    else
      let jobId := "campaign_" ++ toString campaignId
      match schedule_once sched jobId scheduledAt with
      | .error m => .error m
      | .ok (_, jobs) =>
        let apply : Campaign → Campaign := fun c =>
          { c with status := "scheduled", scheduledAt := some scheduledAt }
        let row : ScheduledTask :=
          { id := newTaskId, taskType := "campaign", referenceId := some campaignId,
            jobId := jobId, scheduledAt := some scheduledAt,
            description := some ("發送廣告活動: " ++ camp.name), status := "pending" }
        .ok ({ success := true, jobId := some jobId },
          { db with campaigns := updateFirstCampaign db.campaigns campaignId apply,
                    tasks := db.tasks ++ [row] },
          some jobs)

/-- Endpoint `POST /campaigns/{id}/cancel` (`cancel_campaign`): scheduled only;
cancels job `campaign_{id}` (result ignored) and sets `cancelled`. -/
def cancel_campaign (db : Db) (sched : Scheduler) (campaignId : Nat) :
    ApiResult × Db × Scheduler :=
  match db.campaigns.find? (fun c => c.id == campaignId) with
  | none => ({ success := false, error := some "活動不存在" }, db, sched)
  | some camp =>
    if camp.status != "scheduled" then
      ({ success := false, error := some "只能取消已排程的活動" }, db, sched)
    else
      let jobId := "campaign_" ++ toString campaignId
      let sched1 := (cancel_job sched jobId).2
      let apply : Campaign → Campaign := fun c => { c with status := "cancelled" }
      ({ success := true }, { db with campaigns := updateFirstCampaign db.campaigns campaignId apply },
       sched1)

/-! ### Theorems -/

/-- C5: for every tracking code not present in the store, the click handler
returns a 302 redirect to `/` and changes no state: no `LinkClick` row is
created, no `click_count` is incremented, and no recipient's `clicked` flag
is modified (the returned state is exactly the input state). -/
theorem C5_unknown_code_redirects_home (db : Db) (code : String) (r : Option Int)
    (now : Nat) (ip ua : Option String)
    (h : db.trackedLinks.filter (fun l => l.trackingCode == code) = []) :
    track_click db code r now ip ua = .ok ({ url := "/", statusCode := 302 }, db) := by
  simp [track_click, h, scalarOneOrNone]

def c5db : Db :=
  { trackedLinks := [{ id := 1, campaignId := 1, trackingCode := "abc12345",
                       originalUrl := "https://e.com", clickCount := 3 }] }

/-- Witness for C5 at a concrete store and unknown code. -/
theorem C5_witness :
    (c5db.trackedLinks.filter (fun l => l.trackingCode == "nope0000") = []) ∧
    track_click c5db "nope0000" (some 1) 5 none none =
      .ok ({ url := "/", statusCode := 302 }, c5db) :=
  ⟨by decide, C5_unknown_code_redirects_home c5db "nope0000" (some 1) 5 none none (by decide)⟩

/-- C6: for every campaign whose status is not in `{draft, scheduled}` (or
which does not exist), `send_campaign` fails — with a not-found error when
the campaign is missing and an invalid-state error otherwise — and performs
no mutation: the returned state is exactly the input state (so the
campaign's status, `sent_at`, counters, recipients and tracked links are
all unchanged), and the uuid stream position is not consumed. -/
theorem C6_send_rejects_bad_state (mailer : Mailer) (uuid : Nat → String) (db : Db)
    (cid : Nat) (baseUrl : String) (now n : Nat)
    (h : (db.campaigns.find? (fun c => c.id == cid)).all
          (fun camp => !(camp.status == "draft" || camp.status == "scheduled")) = true) :
    (send_campaign mailer uuid db cid baseUrl now n).1.success = false ∧
    (send_campaign mailer uuid db cid baseUrl now n).2.1 = db ∧
    (send_campaign mailer uuid db cid baseUrl now n).2.2 = n ∧
    (db.campaigns.find? (fun c => c.id == cid) = none →
      (send_campaign mailer uuid db cid baseUrl now n).1.error = some "活動不存在") ∧
    (∀ camp, db.campaigns.find? (fun c => c.id == cid) = some camp →
      (send_campaign mailer uuid db cid baseUrl now n).1.error =
        some ("活動狀態不正確: " ++ camp.status)) := by
  cases hf : db.campaigns.find? (fun c => c.id == cid) with
  | none =>
    refine ⟨?_, ?_, ?_, ?_, ?_⟩ <;> simp [send_campaign, hf]
  | some camp =>
    rw [hf] at h
    have hcond : (camp.status == "draft" || camp.status == "scheduled") = false := by
      cases hb : (camp.status == "draft" || camp.status == "scheduled") with
      | false => rfl
      | true => simp [Option.all, hb] at h
    refine ⟨?_, ?_, ?_, ?_, ?_⟩
    · simp [send_campaign, hf, hcond]
    · simp [send_campaign, hf, hcond]
    · simp [send_campaign, hf, hcond]
    · intro hnone
      exact absurd hnone (by simp)
    · intro camp2 hsome
      have hcc : camp = camp2 := Option.some.inj hsome
      simp [send_campaign, hf, hcond, ← hcc]

def c6db : Db :=
  { campaigns := [{ id := 1, name := "n", subject := "s", content := "c",
                    status := "completed", totalRecipients := 2,
                    sentCount := 2, failedCount := 0 }] }

/-- Witness for C6: sending a completed campaign fails and leaves the
state untouched. -/
theorem C6_witness :
    ((c6db.campaigns.find? (fun c => c.id == 1)).all
        (fun camp => !(camp.status == "draft" || camp.status == "scheduled")) = true) ∧
    ((send_campaign (fun _ => MailOutcome.success) (fun _ => "uuid-0000") c6db 1 "b" 5 0).1.success = false ∧
     (send_campaign (fun _ => MailOutcome.success) (fun _ => "uuid-0000") c6db 1 "b" 5 0).2.1 = c6db ∧
     (send_campaign (fun _ => MailOutcome.success) (fun _ => "uuid-0000") c6db 1 "b" 5 0).2.2 = 0 ∧
     (c6db.campaigns.find? (fun c => c.id == 1) = none →
       (send_campaign (fun _ => MailOutcome.success) (fun _ => "uuid-0000") c6db 1 "b" 5 0).1.error =
         some "活動不存在") ∧
     (∀ camp, c6db.campaigns.find? (fun c => c.id == 1) = some camp →
       (send_campaign (fun _ => MailOutcome.success) (fun _ => "uuid-0000") c6db 1 "b" 5 0).1.error =
         some ("活動狀態不正確: " ++ camp.status))) :=
  ⟨by decide,
   C6_send_rejects_bad_state (fun _ => MailOutcome.success) (fun _ => "uuid-0000") c6db 1 "b" 5 0
     (by decide)⟩

/-- C8 (amended): the `/schedules/once` endpoint rejects a one-shot time
that is not strictly after the current time with a validation error before
any ledger row or scheduler job is created; the scheduler core's
`schedule_once` itself, however, performs no time validation — on an
initialized scheduler it registers a job for any requested run time. -/
theorem C8_once_validation :
    (∀ (ledger : List ScheduledTask) (sched : Scheduler) (tt d tp : String)
        (t now : Nat) (us : String) (rid : Nat), t ≤ now →
      create_once_task ledger sched tt d tp (some t) now us rid =
        .ok ({ success := false, error := some "排程時間必須是未來時間" }, ledger, sched)) ∧
    (∀ (jobs : List Job) (jobId : String) (runAt : Nat),
      schedule_once (some jobs) jobId runAt = .ok (jobId, add_job jobs jobId (.date runAt))) := by
  constructor
  · intro ledger sched tt d tp t now us rid ht
    simp [create_once_task, ht]
  · intro jobs jobId runAt
    rfl

/-- Counterexample for C8 as stated: `schedule_once` does not reject a
non-future trigger time.  It takes no notion of the current time at all,
and registers a job for run time `0` (which is never strictly in the
future) on an initialized empty scheduler. -/
theorem C8_counterexample :
    schedule_once (some []) "once_campaign_send_deadbeef" 0 =
      .ok ("once_campaign_send_deadbeef",
        [{ id := "once_campaign_send_deadbeef", trigger := Trigger.date 0 }]) := rfl

/-- Witness for C8 at a concrete past-dated request: nothing is persisted
or scheduled. -/
theorem C8_witness :
    create_once_task ([] : List ScheduledTask) (some []) "campaign_send" "d" "p"
        (some 3) 5 "ab12cd34" 1 =
      .ok ({ success := false, error := some "排程時間必須是未來時間" },
        ([] : List ScheduledTask), (some [] : Scheduler)) :=
  C8_once_validation.1 [] (some []) "campaign_send" "d" "p" 3 5 "ab12cd34" 1 (by decide)

/-- Whether a one-shot row's scheduled time has already elapsed
(`task.scheduled_at and task.scheduled_at <= datetime.now()`). -/
def oneShotElapsed (now : Nat) (task : ScheduledTask) : Bool :=
  match task.scheduledAt with
  | some t => decide (t ≤ now)
  | none => false

/-- The ledger-row effect of one reload pass over a row: only a pending
one-shot row whose params parse, whose recurring/cron branch does not
apply, and whose time has elapsed is flipped to `missed`; every other row
is written back unchanged. -/
def reload_row (jsonOk : String → Bool) (now : Nat) (task : ScheduledTask) : ScheduledTask :=
  if task.status == "pending" && paramsParse jsonOk task.taskParams
      && !(task.isRecurring && pyTruthyStr task.cronExpression)
      && oneShotElapsed now task
  then { task with status := "missed" } else task

theorem reload_step_fst (jsonOk : String → Bool) (now : Nat) (sched : Scheduler)
    (task : ScheduledTask) :
    (reload_step jsonOk now sched task).1 =
      if paramsParse jsonOk task.taskParams
          && !(task.isRecurring && pyTruthyStr task.cronExpression)
          && oneShotElapsed now task
      then { task with status := "missed" } else task := by
  unfold reload_step
  cases hp : paramsParse jsonOk task.taskParams with
  | false => simp [hp]
  | true =>
    cases hr : task.isRecurring && pyTruthyStr task.cronExpression with
    | true =>
      simp only [hp, hr, Bool.not_true, Bool.true_and, Bool.false_and, Bool.and_false,
        Bool.not_false, if_false, Bool.false_eq_true]
      cases schedule_recurring sched task.jobId (task.cronExpression.getD "") <;> simp
    | false =>
      cases hs : task.scheduledAt with
      | none => simp [hp, hr, hs, oneShotElapsed]
      | some t =>
        by_cases hn : t > now
        · have he : oneShotElapsed now task = false := by
            simp [oneShotElapsed, hs]; omega
          simp only [hp, hr, hs, he, Bool.not_false, Bool.true_and, Bool.and_false,
            if_false, Bool.false_eq_true]
          cases schedule_once sched task.jobId t <;> simp [hn]
        · have he : oneShotElapsed now task = true := by
            simp [oneShotElapsed, hs]; omega
          have hn2 : ¬ t > now := hn
          simp [hp, hr, hs, he, hn2]

theorem reload_ledger (jsonOk : String → Bool) (now : Nat) :
    ∀ (ts : List ScheduledTask) (sched : Scheduler),
      (reload_scheduled_tasks jsonOk now ts sched).1 = ts.map (reload_row jsonOk now) := by
  intro ts
  induction ts with
  | nil => intro sched; rfl
  | cons t ts ih =>
    intro sched
    cases hp : t.status == "pending" with
    | true =>
      simp only [reload_scheduled_tasks, hp, if_true, List.map_cons, List.cons.injEq]
      refine ⟨?_, ?_⟩
      · rw [reload_step_fst]
        simp [reload_row, hp]
      · exact ih _
    | false =>
      simp only [reload_scheduled_tasks, hp, Bool.false_eq_true, if_false, List.map_cons,
        List.cons.injEq]
      refine ⟨?_, ?_⟩
      · simp [reload_row, hp]
      · exact ih _

theorem mem_add_job (jobs : List Job) (jid : String) (tr : Trigger) :
    ∀ j ∈ add_job jobs jid tr, j ∈ jobs ∨ j.id = jid := by
  intro j hj
  unfold add_job at hj
  rcases List.mem_append.mp hj with h | h
  · exact .inl (List.mem_of_mem_filter h)
  · simp only [List.mem_singleton] at h
    subst h
    exact .inr rfl

theorem add_job_id_mem (jobs : List Job) (jid : String) (tr : Trigger) (i : String)
    (h : ∃ jb ∈ jobs, jb.id = i) : ∃ jb ∈ add_job jobs jid tr, jb.id = i := by
  obtain ⟨jb, hm, hi⟩ := h
  by_cases hij : i = jid
  · refine ⟨{ id := jid, trigger := tr }, ?_, hij.symm⟩
    unfold add_job
    exact List.mem_append.mpr (.inr (List.mem_singleton.mpr rfl))
  · refine ⟨jb, ?_, hi⟩
    unfold add_job
    refine List.mem_append.mpr (.inl (List.mem_filter.mpr ⟨hm, ?_⟩))
    simp [hi, hij]

theorem add_job_self_mem (jobs : List Job) (jid : String) (tr : Trigger) :
    ∃ j ∈ add_job jobs jid tr, j.id = jid := by
  refine ⟨{ id := jid, trigger := tr }, ?_, rfl⟩
  unfold add_job
  exact List.mem_append.mpr (.inr (List.mem_singleton.mpr rfl))

/-- The two conditions under which reload actually re-arms a pending row:
a recurring row whose cron expression is present and splits into exactly
five fields, or a one-shot row whose time is still in the future. -/
def reloadArmed (now : Nat) (task : ScheduledTask) : Prop :=
  (task.isRecurring && pyTruthyStr task.cronExpression) = true ∧
    (∃ a b c d e, pySplit (task.cronExpression.getD "") = [a, b, c, d, e]) ∨
  (task.isRecurring && pyTruthyStr task.cronExpression) = false ∧
    (∃ t, task.scheduledAt = some t ∧ now < t)

theorem reload_step_snd (jsonOk : String → Bool) (now : Nat) (jobs : List Job)
    (task : ScheduledTask) :
    ∃ jobs2, (reload_step jsonOk now (some jobs) task).2 = some jobs2 ∧
      (∀ j ∈ jobs2, j ∈ jobs ∨ (j.id = task.jobId ∧
        paramsParse jsonOk task.taskParams = true ∧ reloadArmed now task)) ∧
      (∀ i, (∃ jb ∈ jobs, jb.id = i) → ∃ jb ∈ jobs2, jb.id = i) := by
  unfold reload_step
  cases hp : paramsParse jsonOk task.taskParams with
  | false => exact ⟨jobs, by simp [hp], fun j hj => .inl hj, fun i hi => hi⟩
  | true =>
    cases hr : task.isRecurring && pyTruthyStr task.cronExpression with
    | true =>
      simp only [hp, hr, Bool.not_true, if_true, Bool.true_and]
      unfold schedule_recurring
      cases hs : pySplit (task.cronExpression.getD "") with
      | nil => exact ⟨jobs, by simp, fun j hj => .inl hj, fun i hi => hi⟩
      | cons a l1 =>
        cases l1 with
        | nil => exact ⟨jobs, by simp, fun j hj => .inl hj, fun i hi => hi⟩
        | cons b l2 =>
          cases l2 with
          | nil => exact ⟨jobs, by simp, fun j hj => .inl hj, fun i hi => hi⟩
          | cons c l3 =>
            cases l3 with
            | nil => exact ⟨jobs, by simp, fun j hj => .inl hj, fun i hi => hi⟩
            | cons d l4 =>
              cases l4 with
              | nil => exact ⟨jobs, by simp, fun j hj => .inl hj, fun i hi => hi⟩
              | cons e l5 =>
                cases l5 with
                | nil =>
                  refine ⟨add_job jobs task.jobId (.cron a b c d e), by simp, ?_, ?_⟩
                  · intro j hj
                    rcases mem_add_job jobs task.jobId (.cron a b c d e) j hj with h | h
                    · exact .inl h
                    · exact .inr ⟨h, by simp [hp], .inl ⟨hr, a, b, c, d, e, hs⟩⟩
                  · exact fun i hi => add_job_id_mem jobs task.jobId (.cron a b c d e) i hi
                | cons f l6 => exact ⟨jobs, by simp, fun j hj => .inl hj, fun i hi => hi⟩
    | false =>
      simp only [hp, hr, Bool.not_false, if_true, Bool.true_and, Bool.false_eq_true, if_false]
      cases hs : task.scheduledAt with
      | none => exact ⟨jobs, by simp, fun j hj => .inl hj, fun i hi => hi⟩
      | some t =>
        by_cases hn : t > now
        · refine ⟨add_job jobs task.jobId (.date t), by simp [hn, schedule_once], ?_, ?_⟩
          · intro j hj
            rcases mem_add_job jobs task.jobId (.date t) j hj with h | h
            · exact .inl h
            · exact .inr ⟨h, by simp [hp], .inr ⟨hr, t, hs, hn⟩⟩
          · exact fun i hi => add_job_id_mem jobs task.jobId (.date t) i hi
        · exact ⟨jobs, by simp [hn], fun j hj => .inl hj, fun i hi => hi⟩

theorem reload_jobs_bound (jsonOk : String → Bool) (now : Nat) :
    ∀ (ts : List ScheduledTask) (jobs : List Job),
      ∃ jobs2, (reload_scheduled_tasks jsonOk now ts (some jobs)).2 = some jobs2 ∧
        (∀ j ∈ jobs2, j ∈ jobs ∨ ∃ tk ∈ ts, tk.status = "pending" ∧ j.id = tk.jobId ∧
          paramsParse jsonOk tk.taskParams = true ∧ reloadArmed now tk) ∧
        (∀ i, (∃ jb ∈ jobs, jb.id = i) → ∃ jb ∈ jobs2, jb.id = i) := by
  intro ts
  induction ts with
  | nil => exact fun jobs => ⟨jobs, rfl, fun j hj => .inl hj, fun i hi => hi⟩
  | cons t ts ih =>
    intro jobs
    cases hp : t.status == "pending" with
    | true =>
      obtain ⟨jobs1, h1, h1mem, h1id⟩ := reload_step_snd jsonOk now jobs t
      obtain ⟨jobs2, h2, h2mem, h2id⟩ := ih jobs1
      refine ⟨jobs2, ?_, ?_, ?_⟩
      · simp only [reload_scheduled_tasks, hp, if_true, h1, h2]
      · intro j hj
        rcases h2mem j hj with hj1 | ⟨tk, htk, hpend, hid⟩
        · rcases h1mem j hj1 with hj0 | ⟨hid, hparams, harm⟩
          · exact .inl hj0
          · exact .inr ⟨t, List.mem_cons_self t ts, by simpa using hp, hid, hparams, harm⟩
        · exact .inr ⟨tk, List.mem_cons_of_mem t htk, hpend, hid⟩
      · exact fun i hi => h2id i (h1id i hi)
    | false =>
      obtain ⟨jobs2, h2, h2mem, h2id⟩ := ih jobs
      refine ⟨jobs2, ?_, ?_, ?_⟩
      · simp only [reload_scheduled_tasks, hp, Bool.false_eq_true, if_false, h2]
      · intro j hj
        rcases h2mem j hj with hj0 | ⟨tk, htk, hpend, hid⟩
        · exact .inl hj0
        · exact .inr ⟨tk, List.mem_cons_of_mem t htk, hpend, hid⟩
      · exact h2id

theorem reload_step_arms (jsonOk : String → Bool) (now : Nat) (jobs : List Job)
    (task : ScheduledTask) (hparams : paramsParse jsonOk task.taskParams = true)
    (harm : reloadArmed now task) :
    ∃ jobs1, (reload_step jsonOk now (some jobs) task).2 = some jobs1 ∧
      ∃ j ∈ jobs1, j.id = task.jobId := by
  unfold reload_step
  rcases harm with ⟨hr, a, b, c, d, e, hcron⟩ | ⟨hr, t, hs, hfut⟩
  · simp only [hparams, hr, Bool.not_true, if_true]
    unfold schedule_recurring
    rw [hcron]
    exact ⟨add_job jobs task.jobId (.cron a b c d e), by simp,
      add_job_self_mem jobs task.jobId (.cron a b c d e)⟩
  · have hgt : t > now := hfut
    simp only [hparams, hr, Bool.not_false, if_true, Bool.false_eq_true, if_false, hs, hgt,
      Bool.true_and]
    exact ⟨add_job jobs task.jobId (.date t), by simp [schedule_once, hgt],
      add_job_self_mem jobs task.jobId (.date t)⟩

theorem reload_arms (jsonOk : String → Bool) (now : Nat) :
    ∀ (ts : List ScheduledTask) (jobs : List Job), ∀ task ∈ ts,
      task.status = "pending" → paramsParse jsonOk task.taskParams = true →
      reloadArmed now task →
      ∃ jobs2, (reload_scheduled_tasks jsonOk now ts (some jobs)).2 = some jobs2 ∧
        ∃ j ∈ jobs2, j.id = task.jobId := by
  intro ts
  induction ts with
  | nil => intro jobs task htask; cases htask
  | cons t ts ih =>
    intro jobs task htask hpend hparams harm
    rcases List.mem_cons.mp htask with rfl | htail
    · have hp : (task.status == "pending") = true := by simp [hpend]
      obtain ⟨jobs1, h1, j, hjmem, hjid⟩ := reload_step_arms jsonOk now jobs task hparams harm
      obtain ⟨jobs2, h2, _, h2id⟩ := reload_jobs_bound jsonOk now ts jobs1
      refine ⟨jobs2, ?_, h2id task.jobId ⟨j, hjmem, hjid⟩⟩
      simp only [reload_scheduled_tasks, hp, if_true, h1, h2]
    · cases hp : t.status == "pending" with
      | true =>
        obtain ⟨jobs1, h1, _, _⟩ := reload_step_snd jsonOk now jobs t
        obtain ⟨jobs2, h2, hj⟩ := ih jobs1 task htail hpend hparams harm
        refine ⟨jobs2, ?_, hj⟩
        simp only [reload_scheduled_tasks, hp, if_true, h1, h2]
      | false =>
        obtain ⟨jobs2, h2, hj⟩ := ih jobs task htail hpend hparams harm
        refine ⟨jobs2, ?_, hj⟩
        simp only [reload_scheduled_tasks, hp, Bool.false_eq_true, if_false, h2]

/-- C7 (amended): at restart recovery every ledger row in a non-pending
status is written back untouched, and each pending row is handled once:
a pending recurring row with a well-formed (five-field) cron expression
and parseable params is re-armed in the job table under its `job_id`, a
pending one-shot row with parseable params whose `scheduled_at` is still
in the future is re-armed likewise, and a pending one-shot row whose
`scheduled_at` has elapsed (params parseable, recurring branch not
applicable) is flipped to `missed`; a pending row whose params fail to
parse, or whose cron expression is malformed, is skipped — left pending
and not re-armed.  No job is ever registered for a row that is not
re-armed (in particular a `missed` row's callback is never scheduled):
every job in the output table either was already registered or carries the
`job_id` of some pending ledger row that reload armed. -/
theorem C7_reload_policy :
    (∀ (jsonOk : String → Bool) (now : Nat) (ts : List ScheduledTask) (sched : Scheduler),
      (reload_scheduled_tasks jsonOk now ts sched).1 = ts.map (reload_row jsonOk now)) ∧
    (∀ (jsonOk : String → Bool) (now : Nat) (task : ScheduledTask),
      task.status ≠ "pending" → reload_row jsonOk now task = task) ∧
    (∀ (jsonOk : String → Bool) (now : Nat) (task : ScheduledTask),
      task.status = "pending" → paramsParse jsonOk task.taskParams = true →
      (task.isRecurring && pyTruthyStr task.cronExpression) = false →
      oneShotElapsed now task = true →
      reload_row jsonOk now task = { task with status := "missed" }) ∧
    (∀ (jsonOk : String → Bool) (now : Nat) (task : ScheduledTask),
      (task.isRecurring && pyTruthyStr task.cronExpression) = true ∨
        oneShotElapsed now task = false ∨
        paramsParse jsonOk task.taskParams = false →
      reload_row jsonOk now task = task) ∧
    (∀ (jsonOk : String → Bool) (now : Nat) (ts : List ScheduledTask) (jobs : List Job),
      ∃ jobs2, (reload_scheduled_tasks jsonOk now ts (some jobs)).2 = some jobs2 ∧
        ∀ j ∈ jobs2, j ∈ jobs ∨ ∃ tk ∈ ts, tk.status = "pending" ∧ j.id = tk.jobId ∧
          paramsParse jsonOk tk.taskParams = true ∧ reloadArmed now tk) ∧
    (∀ (jsonOk : String → Bool) (now : Nat) (ts : List ScheduledTask) (jobs : List Job),
      ∀ task ∈ ts, task.status = "pending" → paramsParse jsonOk task.taskParams = true →
      reloadArmed now task →
      ∃ jobs2, (reload_scheduled_tasks jsonOk now ts (some jobs)).2 = some jobs2 ∧
        ∃ j ∈ jobs2, j.id = task.jobId) := by
  refine ⟨reload_ledger, ?_, ?_, ?_, ?_, reload_arms⟩
  · intro jsonOk now task h
    have hp : (task.status == "pending") = false := by
      cases hb : task.status == "pending" with
      | false => rfl
      | true => exact absurd (by simpa using hb) h
    simp [reload_row, hp]
  · intro jsonOk now task hpend hparams hr he
    have hp : (task.status == "pending") = true := by simp [hpend]
    simp [reload_row, hp, hparams, hr, he]
  · intro jsonOk now task h
    rcases h with hr | he | hparams
    · simp [reload_row, hr]
    · simp [reload_row, he]
    · simp [reload_row, hparams]
  · intro jsonOk now ts jobs
    obtain ⟨jobs2, h2, hmem, _⟩ := reload_jobs_bound jsonOk now ts jobs
    exact ⟨jobs2, h2, hmem⟩

def c7task : ScheduledTask :=
  { id := 1, taskType := "campaign_send", jobId := "job1", isRecurring := true,
    cronExpression := some "0 9 *", status := "pending" }

/-- Counterexample for C7 as stated: a pending recurring row whose cron
expression has only three fields is not re-armed via the recurring
scheduler — reload leaves the row pending and registers nothing (the
`ValueError` of `schedule_recurring` is swallowed by the per-row
`except`). -/
theorem C7_counterexample :
    reload_scheduled_tasks (fun _ => true) 50 [c7task] (some []) = ([c7task], some []) := by
  decide

def c7past : ScheduledTask :=
  { id := 2, taskType := "campaign_send", jobId := "job2", scheduledAt := some 5,
    status := "pending" }

def c7future : ScheduledTask :=
  { id := 3, taskType := "campaign_send", jobId := "job3", scheduledAt := some 100,
    status := "pending" }

def c7done : ScheduledTask :=
  { id := 4, taskType := "campaign_send", jobId := "job4", scheduledAt := some 5,
    status := "completed" }

/-- Witness for C7 at `now = 50`: the elapsed pending one-shot row flips to
`missed` and registers nothing, the future one is re-armed, the completed
one is untouched. -/
theorem C7_witness :
    (reload_scheduled_tasks (fun _ => true) 50 [c7past, c7future, c7done] (some [])).1 =
        [c7past, c7future, c7done].map (reload_row (fun _ => true) 50) ∧
    reload_scheduled_tasks (fun _ => true) 50 [c7past, c7future, c7done] (some []) =
      ([{ c7past with status := "missed" }, c7future, c7done],
        some [{ id := "job3", trigger := Trigger.date 100 }]) :=
  ⟨C7_reload_policy.1 (fun _ => true) 50 [c7past, c7future, c7done] (some []), by rfl⟩

/-- The status of a campaign row, as the lifecycle endpoints observe it. -/
def campaignStatus (db : Db) (cid : Nat) : Option String :=
  (db.campaigns.find? (fun c => c.id == cid)).map (fun c => c.status)

theorem find?_updateFirstCampaign_self (cs : List Campaign) (cid : Nat)
    (f : Campaign → Campaign) (hf : ∀ c, (f c).id = c.id) :
    (updateFirstCampaign cs cid f).find? (fun c => c.id == cid) =
      (cs.find? (fun c => c.id == cid)).map f := by
  induction cs with
  | nil => rfl
  | cons c cs ih =>
    by_cases hc : c.id = cid
    · have hcb : (c.id == cid) = true := beq_iff_eq.mpr hc
      have hfb : ((f c).id == cid) = true := beq_iff_eq.mpr (by rw [hf c, hc])
      simp [updateFirstCampaign, hcb, hfb, List.find?_cons]
    · have hcb : (c.id == cid) = false := beq_eq_false_iff_ne.mpr hc
      simp [updateFirstCampaign, hcb, List.find?_cons, ih]

theorem find?_updateFirstCampaign_ne (cs : List Campaign) (cid x : Nat)
    (f : Campaign → Campaign) (hf : ∀ c, (f c).id = c.id) (hx : x ≠ cid) :
    (updateFirstCampaign cs cid f).find? (fun c => c.id == x) =
      cs.find? (fun c => c.id == x) := by
  induction cs with
  | nil => rfl
  | cons c cs ih =>
    by_cases hc : c.id = cid
    · have h1 : ((f c).id == x) = false := by
        rw [hf c, hc]
        exact beq_eq_false_iff_ne.mpr (fun h => hx h.symm)
      have h2 : (c.id == x) = false := by
        rw [hc]
        exact beq_eq_false_iff_ne.mpr (fun h => hx h.symm)
      simp [updateFirstCampaign, beq_iff_eq.mpr hc, h1, h2, List.find?_cons]
    · have hcb : (c.id == cid) = false := beq_eq_false_iff_ne.mpr hc
      by_cases hcx : c.id = x
      · simp [updateFirstCampaign, hcb, beq_iff_eq.mpr hcx, List.find?_cons]
      · simp [updateFirstCampaign, hcb, beq_eq_false_iff_ne.mpr hcx, List.find?_cons, ih]

theorem schedule_campaign_frame (db : Db) (sched : Scheduler) (cid t now tid : Nat)
    (out : ApiResult × Db × Scheduler)
    (h : schedule_campaign db sched cid t now tid = .ok out) :
    ∀ x, campaignStatus out.2.1 x = campaignStatus db x ∨
      (x = cid ∧ campaignStatus db x = some "draft" ∧
        campaignStatus out.2.1 x = some "scheduled") := by
  unfold schedule_campaign at h
  cases hf : db.campaigns.find? (fun c => c.id == cid) with
  | none =>
    rw [hf] at h
    cases h
    exact fun x => .inl rfl
  | some camp =>
    rw [hf] at h
    dsimp only at h
    by_cases hd : camp.status = "draft"
    · have hdb : (camp.status != "draft") = false := by simp [hd]
      rw [hdb] at h
      simp only [Bool.false_eq_true, if_false] at h
      by_cases hto : t ≤ now
      · rw [if_pos hto] at h
        cases h
        exact fun x => .inl rfl
      · rw [if_neg hto] at h
        cases hsch : sched with
        | none => rw [hsch] at h; cases h
        | some jobs =>
          rw [hsch] at h
          simp only [schedule_once] at h
          cases h
          intro x
          by_cases hx : x = cid
          · subst hx
            refine .inr ⟨rfl, ?_, ?_⟩
            · simp [campaignStatus, hf, hd]
            · simp only [campaignStatus]
              rw [find?_updateFirstCampaign_self db.campaigns x (fun c => { c with status := "scheduled", scheduledAt := some t }) (fun c => rfl), hf]
              rfl
          · left
            simp only [campaignStatus]
            rw [find?_updateFirstCampaign_ne db.campaigns cid x (fun c => { c with status := "scheduled", scheduledAt := some t }) (fun c => rfl) hx]
    · have hdb : (camp.status != "draft") = true := by simp [hd]
      rw [hdb] at h
      simp only [if_true] at h
      cases h
      exact fun x => .inl rfl

theorem schedule_campaign_realizes (db : Db) (jobs : List Job) (cid t now tid : Nat)
    (camp : Campaign) (hf : db.campaigns.find? (fun c => c.id == cid) = some camp)
    (hd : camp.status = "draft") (ht : now < t) :
    ∃ res db2 sched2, schedule_campaign db (some jobs) cid t now tid = .ok (res, db2, sched2) ∧
      res.success = true ∧ campaignStatus db2 cid = some "scheduled" := by
  unfold schedule_campaign
  rw [hf]
  dsimp only
  have hdb : (camp.status != "draft") = false := by simp [hd]
  rw [hdb]
  have hto : ¬ t ≤ now := by omega
  simp only [Bool.false_eq_true, if_false, if_neg hto, schedule_once]
  refine ⟨_, _, _, rfl, rfl, ?_⟩
  simp only [campaignStatus]
  rw [find?_updateFirstCampaign_self db.campaigns cid (fun c => { c with status := "scheduled", scheduledAt := some t }) (fun c => rfl), hf]
  rfl

theorem cancel_campaign_frame (db : Db) (sched : Scheduler) (cid : Nat) :
    ∀ x, campaignStatus (cancel_campaign db sched cid).2.1 x = campaignStatus db x ∨
      (x = cid ∧ campaignStatus db x = some "scheduled" ∧
        campaignStatus (cancel_campaign db sched cid).2.1 x = some "cancelled") := by
  unfold cancel_campaign
  cases hf : db.campaigns.find? (fun c => c.id == cid) with
  | none => exact fun x => .inl rfl
  | some camp =>
    dsimp only
    by_cases hs : camp.status = "scheduled"
    · have hsb : (camp.status != "scheduled") = false := by simp [hs]
      rw [hsb]
      simp only [Bool.false_eq_true, if_false]
      intro x
      by_cases hx : x = cid
      · subst hx
        refine .inr ⟨rfl, ?_, ?_⟩
        · simp [campaignStatus, hf, hs]
        · simp only [campaignStatus]
          rw [find?_updateFirstCampaign_self db.campaigns x (fun c => { c with status := "cancelled" }) (fun c => rfl), hf]
          rfl
      · left
        simp only [campaignStatus]
        rw [find?_updateFirstCampaign_ne db.campaigns cid x (fun c => { c with status := "cancelled" }) (fun c => rfl) hx]
    · have hsb : (camp.status != "scheduled") = true := by simp [hs]
      rw [hsb]
      simp only [if_true]
      exact fun x => .inl (by trivial)

theorem cancel_campaign_realizes (db : Db) (sched : Scheduler) (cid : Nat) (camp : Campaign)
    (hf : db.campaigns.find? (fun c => c.id == cid) = some camp)
    (hs : camp.status = "scheduled") :
    (cancel_campaign db sched cid).1.success = true ∧
      campaignStatus (cancel_campaign db sched cid).2.1 cid = some "cancelled" := by
  unfold cancel_campaign
  rw [hf]
  dsimp only
  have hsb : (camp.status != "scheduled") = false := by simp [hs]
  rw [hsb]
  simp only [Bool.false_eq_true, if_false]
  refine ⟨by trivial, ?_⟩
  simp only [campaignStatus]
  rw [find?_updateFirstCampaign_self db.campaigns cid (fun c => { c with status := "cancelled" }) (fun c => rfl), hf]
  rfl

theorem cancel_campaign_rejects_draft (db : Db) (sched : Scheduler) (cid : Nat)
    (camp : Campaign) (hf : db.campaigns.find? (fun c => c.id == cid) = some camp)
    (hd : camp.status = "draft") :
    cancel_campaign db sched cid =
      ({ success := false, error := some "只能取消已排程的活動" }, db, sched) := by
  unfold cancel_campaign
  rw [hf]
  dsimp only
  have hsb : (camp.status != "scheduled") = true := by simp [hd]
  rw [hsb]
  simp only [if_true]

theorem send_begin_status (db : Db) (cid now : Nat) :
    (∀ camp, db.campaigns.find? (fun c => c.id == cid) = some camp →
      campaignStatus (send_campaign_begin db cid now) cid = some "sending") ∧
    (∀ x, x ≠ cid →
      campaignStatus (send_campaign_begin db cid now) x = campaignStatus db x) := by
  constructor
  · intro camp hf
    simp only [campaignStatus, send_campaign_begin]
    rw [find?_updateFirstCampaign_self]
    · rw [hf]; rfl
    · intro c; rfl
  · intro x hx
    simp only [campaignStatus, send_campaign_begin]
    rw [find?_updateFirstCampaign_ne]
    · intro c; rfl
    · exact hx

theorem send_finish_status (mailer : Mailer) (uuid : Nat → String) (db : Db)
    (camp : Campaign) (baseUrl : String) (now n : Nat) :
    (∀ c0, db.campaigns.find? (fun c => c.id == camp.id) = some c0 →
      campaignStatus (send_campaign_finish mailer uuid db camp baseUrl now n).2.1 camp.id =
        some "completed") ∧
    (∀ x, x ≠ camp.id →
      campaignStatus (send_campaign_finish mailer uuid db camp baseUrl now n).2.1 x =
        campaignStatus db x) := by
  constructor
  · intro c0 hf
    simp only [campaignStatus, send_campaign_finish]
    rw [find?_updateFirstCampaign_self]
    · rw [hf]; rfl
    · intro c; rfl
  · intro x hx
    simp only [campaignStatus, send_campaign_finish]
    rw [find?_updateFirstCampaign_ne]
    · intro c; rfl
    · exact hx

theorem send_campaign_status_frame (mailer : Mailer) (uuid : Nat → String) (db : Db)
    (cid : Nat) (baseUrl : String) (now n : Nat) :
    ∀ x, campaignStatus (send_campaign mailer uuid db cid baseUrl now n).2.1 x =
        campaignStatus db x ∨
      (x = cid ∧ (campaignStatus db x = some "draft" ∨ campaignStatus db x = some "scheduled") ∧
        campaignStatus (send_campaign mailer uuid db cid baseUrl now n).2.1 x =
          some "completed") := by
  unfold send_campaign
  cases hf : db.campaigns.find? (fun c => c.id == cid) with
  | none => exact fun x => .inl rfl
  | some camp =>
    dsimp only
    cases hst : camp.status == "draft" || camp.status == "scheduled" with
    | false =>
      simp only [Bool.false_eq_true, if_false]
      exact fun x => .inl (by trivial)
    | true =>
      simp only [if_true]
      have hcampid : camp.id = cid := by
        have h2 := List.find?_some hf
        simpa using h2
      intro x
      by_cases hx : x = cid
      · subst hx
        refine .inr ⟨rfl, ?_, ?_⟩
        · have h3 : camp.status = "draft" ∨ camp.status = "scheduled" := by
            rcases (Bool.or_eq_true _ _).mp hst with h | h
            · exact .inl (by simpa using h)
            · exact .inr (by simpa using h)
          rcases h3 with h | h
          · exact .inl (by simp [campaignStatus, hf, h])
          · exact .inr (by simp [campaignStatus, hf, h])
        · simp only [campaignStatus, send_campaign_finish, send_campaign_begin]
          rw [hcampid, find?_updateFirstCampaign_self]
          · rw [find?_updateFirstCampaign_self]
            · rw [hf]; rfl
            · intro c; rfl
          · intro c; rfl
      · left
        simp only [campaignStatus, send_campaign_finish, send_campaign_begin]
        rw [hcampid, find?_updateFirstCampaign_ne]
        · rw [find?_updateFirstCampaign_ne]
          · intro c; rfl
          · exact hx
        · intro c; rfl
        · exact hx

theorem update_campaign_preserves_status (db : Db) (cid : Nat) (u : CampaignUpdateFields)
    (db2 : Db) (h : update_campaign db cid u = some db2) :
    ∀ x, campaignStatus db2 x = campaignStatus db x := by
  unfold update_campaign at h
  cases hf : db.campaigns.find? (fun c => c.id == cid) with
  | none => rw [hf] at h; cases h
  | some camp =>
    rw [hf] at h
    dsimp only at h
    by_cases hd : camp.status = "draft"
    · have hb : (camp.status != "draft") = false := by simp [hd]
      rw [hb] at h
      simp only [Bool.false_eq_true, if_false, Option.some.injEq] at h
      subst h
      intro x
      by_cases hx : x = cid
      · subst hx
        simp only [campaignStatus]
        rw [find?_updateFirstCampaign_self]
        · rw [hf]; rfl
        · intro c; rfl
      · simp only [campaignStatus]
        rw [find?_updateFirstCampaign_ne]
        · intro c; rfl
        · exact hx
    · have hb : (camp.status != "draft") = true := by simp [hd]
      rw [hb] at h
      simp at h

theorem terminal_states_frozen (db : Db) (cid : Nat) (camp : Campaign)
    (hf : db.campaigns.find? (fun c => c.id == cid) = some camp)
    (ht : camp.status = "completed" ∨ camp.status = "cancelled") :
    (∀ sched t now tid out, schedule_campaign db sched cid t now tid = .ok out →
      out = ({ success := false, error := some "只有草稿狀態的活動可以排程" }, db, sched)) ∧
    (∀ sched, cancel_campaign db sched cid =
      ({ success := false, error := some "只能取消已排程的活動" }, db, sched)) ∧
    (∀ u, update_campaign db cid u = none) ∧
    (delete_campaign db cid = (false, db)) ∧
    (∀ mailer uuid baseUrl now n,
      (send_campaign mailer uuid db cid baseUrl now n).2.1 = db) := by
  have hnd : (camp.status != "draft") = true := by rcases ht with h | h <;> simp [h]
  have hns : (camp.status != "scheduled") = true := by rcases ht with h | h <;> simp [h]
  have hno : (camp.status == "draft" || camp.status == "scheduled") = false := by
    rcases ht with h | h <;> simp [h]
  refine ⟨?_, ?_, ?_, ?_, ?_⟩
  · intro sched t now tid out h
    unfold schedule_campaign at h
    rw [hf] at h
    dsimp only at h
    rw [hnd] at h
    simp only [if_true] at h
    exact (Except.ok.inj h).symm
  · intro sched
    unfold cancel_campaign
    rw [hf]
    dsimp only
    rw [hns]
    simp only [if_true]
  · intro u
    unfold update_campaign
    rw [hf]
    dsimp only
    rw [hnd]
    simp only [if_true]
  · unfold delete_campaign
    rw [hf]
    dsimp only
    rw [hnd]
    simp only [if_true]
  · intro mailer uuid baseUrl now n
    unfold send_campaign
    rw [hf]
    dsimp only
    rw [hno]
    simp only [Bool.false_eq_true, if_false]

/-- C9 (amended): `Campaign.status` moves only along the edges
`draft → scheduled` (schedule), `draft|scheduled → sending` (send start),
`sending → completed` (send completion), and `scheduled → cancelled`
(explicit cancel); update never changes a status, and no operation moves a
campaign out of `completed` or `cancelled`.  Contrary to the claim, the
cancel endpoint does **not** accept a draft campaign: only `scheduled`
campaigns can be cancelled (see the counterexample), so the edge
`draft → cancelled` does not exist. -/
theorem C9_status_machine :
    (∀ (db : Db) (sched : Scheduler) (cid t now tid : Nat) (out : ApiResult × Db × Scheduler),
      schedule_campaign db sched cid t now tid = .ok out →
      ∀ x, campaignStatus out.2.1 x = campaignStatus db x ∨
        (x = cid ∧ campaignStatus db x = some "draft" ∧
          campaignStatus out.2.1 x = some "scheduled")) ∧
    (∀ (db : Db) (jobs : List Job) (cid t now tid : Nat) (camp : Campaign),
      db.campaigns.find? (fun c => c.id == cid) = some camp →
      camp.status = "draft" → now < t →
      ∃ res db2 sched2, schedule_campaign db (some jobs) cid t now tid = .ok (res, db2, sched2) ∧
        res.success = true ∧ campaignStatus db2 cid = some "scheduled") ∧
    (∀ (db : Db) (sched : Scheduler) (cid : Nat) (x : Nat),
      campaignStatus (cancel_campaign db sched cid).2.1 x = campaignStatus db x ∨
        (x = cid ∧ campaignStatus db x = some "scheduled" ∧
          campaignStatus (cancel_campaign db sched cid).2.1 x = some "cancelled")) ∧
    (∀ (db : Db) (sched : Scheduler) (cid : Nat) (camp : Campaign),
      db.campaigns.find? (fun c => c.id == cid) = some camp → camp.status = "scheduled" →
      (cancel_campaign db sched cid).1.success = true ∧
        campaignStatus (cancel_campaign db sched cid).2.1 cid = some "cancelled") ∧
    (∀ (db : Db) (cid now : Nat) (camp : Campaign),
      db.campaigns.find? (fun c => c.id == cid) = some camp →
      campaignStatus (send_campaign_begin db cid now) cid = some "sending") ∧
    (∀ (db : Db) (cid now : Nat) (x : Nat), x ≠ cid →
      campaignStatus (send_campaign_begin db cid now) x = campaignStatus db x) ∧
    (∀ (mailer : Mailer) (uuid : Nat → String) (db : Db) (camp : Campaign)
        (baseUrl : String) (now n : Nat) (c0 : Campaign),
      db.campaigns.find? (fun c => c.id == camp.id) = some c0 →
      campaignStatus (send_campaign_finish mailer uuid db camp baseUrl now n).2.1 camp.id =
        some "completed") ∧
    (∀ (mailer : Mailer) (uuid : Nat → String) (db : Db) (cid : Nat)
        (baseUrl : String) (now n : Nat) (x : Nat),
      campaignStatus (send_campaign mailer uuid db cid baseUrl now n).2.1 x =
          campaignStatus db x ∨
        (x = cid ∧
          (campaignStatus db x = some "draft" ∨ campaignStatus db x = some "scheduled") ∧
          campaignStatus (send_campaign mailer uuid db cid baseUrl now n).2.1 x =
            some "completed")) ∧
    (∀ (db : Db) (cid : Nat) (u : CampaignUpdateFields) (db2 : Db),
      update_campaign db cid u = some db2 → ∀ x, campaignStatus db2 x = campaignStatus db x) ∧
    (∀ (db : Db) (cid : Nat) (camp : Campaign),
      db.campaigns.find? (fun c => c.id == cid) = some camp →
      camp.status = "completed" ∨ camp.status = "cancelled" →
      (∀ sched t now tid out, schedule_campaign db sched cid t now tid = .ok out →
        out = ({ success := false, error := some "只有草稿狀態的活動可以排程" }, db, sched)) ∧
      (∀ sched, cancel_campaign db sched cid =
        ({ success := false, error := some "只能取消已排程的活動" }, db, sched)) ∧
      (∀ u, update_campaign db cid u = none) ∧
      (delete_campaign db cid = (false, db)) ∧
      (∀ mailer uuid baseUrl now n,
        (send_campaign mailer uuid db cid baseUrl now n).2.1 = db)) := by
  refine ⟨?_, ?_, ?_, ?_, ?_, ?_, ?_, ?_, ?_, ?_⟩
  · exact fun db sched cid t now tid out h => schedule_campaign_frame db sched cid t now tid out h
  · exact fun db jobs cid t now tid camp hf hd ht =>
      schedule_campaign_realizes db jobs cid t now tid camp hf hd ht
  · exact fun db sched cid x => cancel_campaign_frame db sched cid x
  · exact fun db sched cid camp hf hs => cancel_campaign_realizes db sched cid camp hf hs
  · exact fun db cid now camp hf => (send_begin_status db cid now).1 camp hf
  · exact fun db cid now x hx => (send_begin_status db cid now).2 x hx
  · exact fun mailer uuid db camp baseUrl now n c0 hf =>
      (send_finish_status mailer uuid db camp baseUrl now n).1 c0 hf
  · exact fun mailer uuid db cid baseUrl now n x =>
      send_campaign_status_frame mailer uuid db cid baseUrl now n x
  · exact fun db cid u db2 h x => update_campaign_preserves_status db cid u db2 h x
  · exact fun db cid camp hf ht => terminal_states_frozen db cid camp hf ht

def c9draft : Db :=
  { campaigns := [{ id := 1, name := "n", subject := "s", content := "c", status := "draft" }] }

def c9sched : Db :=
  { campaigns := [{ id := 1, name := "n", subject := "s", content := "c",
                    status := "scheduled" }] }

/-- Counterexample for C9 as stated: a campaign in status `draft` cannot be
cancelled — the cancel endpoint rejects it with an invalid-state error and
the status stays `draft`, so the claimed `draft → cancelled` edge is not
realizable. -/
theorem C9_counterexample :
    cancel_campaign c9draft (some []) 1 =
      ({ success := false, error := some "只能取消已排程的活動" }, c9draft, some []) ∧
    campaignStatus c9draft 1 = some "draft" := by
  constructor
  · decide
  · decide

/-- Witness for C9: the `scheduled → cancelled` and `draft → scheduled`
edges realized on concrete one-campaign states. -/
theorem C9_witness :
    ((cancel_campaign c9sched (some []) 1).1.success = true ∧
      campaignStatus (cancel_campaign c9sched (some []) 1).2.1 1 = some "cancelled") ∧
    (∃ res db2 sched2, schedule_campaign c9draft (some []) 1 10 5 1 = .ok (res, db2, sched2) ∧
      res.success = true ∧ campaignStatus db2 1 = some "scheduled") :=
  ⟨C9_status_machine.2.2.2.1 c9sched (some []) 1
      { id := 1, name := "n", subject := "s", content := "c", status := "scheduled" }
      (by decide) rfl,
   C9_status_machine.2.1 c9draft [] 1 10 5 1
      { id := 1, name := "n", subject := "s", content := "c", status := "draft" }
      (by decide) rfl (by decide)⟩

theorem filter_key_cases {α β : Type} [DecidableEq β] (key : α → β) :
    ∀ (l : List α), (l.map key).Nodup → ∀ (k : β),
      l.filter (fun x => key x == k) = [] ∨
        ∃ a, l.filter (fun x => key x == k) = [a] ∧ a ∈ l ∧ key a = k := by
  intro l
  induction l with
  | nil => intro _ k; exact .inl rfl
  | cons b l ih =>
    intro hnd k
    rw [List.map_cons] at hnd
    have hnd0 : key b ∉ List.map key l ∧ (List.map key l).Nodup := List.nodup_cons.mp hnd
    by_cases hb : key b = k
    · right
      refine ⟨b, ?_, List.mem_cons_self b l, hb⟩
      rw [List.filter_cons_of_pos (by simp [hb])]
      have hfe : l.filter (fun x => key x == k) = [] := by
        rw [List.filter_eq_nil_iff]
        intro x hx
        simp only [beq_iff_eq]
        intro hxk
        exact hnd0.1 (by
          rw [hb, ← hxk]
          exact List.mem_map_of_mem key hx)
      rw [hfe]
    · rw [List.filter_cons_of_neg (by simp [hb])]
      rcases ih hnd0.2 k with h | ⟨a, ha, ham, hak⟩
      · exact .inl h
      · exact .inr ⟨a, ha, List.mem_cons_of_mem b ham, hak⟩

theorem mem_singleton_filter {α : Type} (p : α → Bool) (l : List α) (a x : α)
    (hf : l.filter p = [a]) (hx : x ∈ l) (hpx : p x = true) : x = a := by
  have : x ∈ l.filter p := List.mem_filter.mpr ⟨hx, hpx⟩
  rw [hf] at this
  exact List.mem_singleton.mp this

def c4db : Db :=
  { trackedLinks := [{ id := 11, campaignId := 1, trackingCode := "abc12345",
                       originalUrl := "https://e.com", clickCount := 0 }],
    recipients := [{ id := 2, campaignId := 1 }] }

def c4db1 : Db :=
  { trackedLinks := [{ id := 11, campaignId := 1, trackingCode := "abc12345",
                       originalUrl := "https://e.com", clickCount := 1 }],
    linkClicks := [{ trackedLinkId := 11, recipientId := some 2, clickedAt := 50 }],
    recipients := [{ id := 2, campaignId := 1, clicked := true, clickedAt := some 50 }] }

def c4db2 : Db :=
  { trackedLinks := [{ id := 11, campaignId := 1, trackingCode := "abc12345",
                       originalUrl := "https://e.com", clickCount := 2 }],
    linkClicks := [{ trackedLinkId := 11, recipientId := some 2, clickedAt := 50 },
                   { trackedLinkId := 11, recipientId := some 2, clickedAt := 60 }],
    recipients := [{ id := 2, campaignId := 1, clicked := true, clickedAt := some 50 }] }

/-- C4: clicking a known tracking code appends exactly one `LinkClick`
event (clicks are never deduplicated), increments that link's
`click_count` (and only that link's), and redirects to the link's
`original_url`; a supplied recipient id referencing an existing recipient
gets `clicked`/`clicked_at` set only when not already clicked — an
already-clicked recipient row passes through unchanged, so a second click
with the same recipient id bumps `click_count` again but leaves
`clicked_at` at its first value, as the concrete two-click run shows. -/
theorem C4_click_recording :
    (∀ (db : Db) (code : String) (r : Option Int) (now : Nat) (ip ua : Option String)
        (link : TrackedLink),
      scalarOneOrNone (db.trackedLinks.filter (fun l => l.trackingCode == code)) =
        .ok (some link) →
      (db.recipients.map (fun x => x.id)).Nodup →
      ∃ db2, track_click db code r now ip ua = .ok ({ url := link.originalUrl }, db2) ∧
        db2.linkClicks = db.linkClicks ++
          [{ trackedLinkId := link.id, recipientId := r, clickedAt := now, ipAddress := ip,
             userAgent := ua.map (fun s => String.mk (s.data.take 500)) }] ∧
        db2.trackedLinks = db.trackedLinks.map (fun l =>
          if l.trackingCode == code then { l with clickCount := l.clickCount + 1 } else l) ∧
        (∀ x ∈ db.recipients, x.clicked = true → x ∈ db2.recipients) ∧
        (∀ rid : Int, r = some rid → rid ≠ 0 →
          ∀ rec ∈ db.recipients, (rec.id : Int) = rid → rec.clicked = false →
            { rec with clicked := true, clickedAt := some now } ∈ db2.recipients) ∧
        (pyTruthyInt r = false → db2.recipients = db.recipients)) ∧
    (track_click c4db "abc12345" (some 2) 50 none none = .ok ({ url := "https://e.com" }, c4db1) ∧
      track_click c4db1 "abc12345" (some 2) 60 none none =
        .ok ({ url := "https://e.com" }, c4db2)) := by
  constructor
  · intro db code r now ip ua link h1 hnd
    unfold track_click
    rw [h1]
    dsimp only
    have hndInt : (db.recipients.map (fun x => (x.id : Int))).Nodup := by
      have h2 : (List.map (fun v : Nat => (v : Int)) (db.recipients.map (fun x => x.id))).Nodup :=
        List.Nodup.map (fun a b h => by exact_mod_cast h) hnd
      rw [List.map_map] at h2
      exact h2
    cases hr : pyTruthyInt r with
    | false =>
      simp only [Bool.false_eq_true, if_false]
      refine ⟨_, rfl, rfl, rfl, ?_, ?_, fun _ => rfl⟩
      · intro x hx _; exact hx
      · intro rid hrid hrid0 rec _ _ _
        subst hrid
        simp [pyTruthyInt, hrid0] at hr
    | true =>
      simp only [if_true]
      obtain ⟨rid, rfl, hrid0⟩ : ∃ rid : Int, r = some rid ∧ rid ≠ 0 := by
        cases r with
        | none => simp [pyTruthyInt] at hr
        | some v =>
          refine ⟨v, rfl, ?_⟩
          simpa [pyTruthyInt] using hr
      have hgd : (some rid).getD 0 = rid := rfl
      rw [hgd]
      rcases filter_key_cases (fun x => (x.id : Int)) db.recipients hndInt rid with hfe | ⟨rec0, hfe, hrec0m, hrec0k⟩
      · rw [hfe]
        simp only [scalarOneOrNone]
        refine ⟨_, rfl, rfl, rfl, ?_, ?_, ?_⟩
        · intro x hx _; exact hx
        · intro rid2 hr2 _ rec hrecm hreck hrecc
          cases hr2
          have hmem : rec ∈ db.recipients.filter (fun x => ((x.id : Int) == rid)) :=
            List.mem_filter.mpr ⟨hrecm, by simp [hreck]⟩
          rw [hfe] at hmem
          cases hmem
        · intro hcontra; exact absurd hcontra (by simp [hr])
      · rw [hfe]
        simp only [scalarOneOrNone]
        cases hc : rec0.clicked with
        | true =>
          simp only [Bool.not_true, Bool.false_eq_true, if_false]
          refine ⟨_, rfl, rfl, rfl, ?_, ?_, ?_⟩
          · intro x hx _; exact hx
          · intro rid2 hr2 _ rec hrecm hreck hrecc
            cases hr2
            have heq : rec = rec0 := mem_singleton_filter _ _ _ _ hfe hrecm (by simp [hreck])
            rw [heq] at hrecc
            rw [hrecc] at hc
            cases hc
          · intro hcontra; exact absurd hcontra (by simp [hr])
        | false =>
          simp only [Bool.not_false, if_true]
          refine ⟨_, rfl, rfl, rfl, ?_, ?_, ?_⟩
          · intro x hx hxc
            have hxid : x.id ≠ rec0.id := by
              intro hid
              have heq : x = rec0 := mem_singleton_filter _ _ _ _ hfe hx (by simp [hid, hrec0k])
              rw [heq] at hxc
              rw [hxc] at hc
              cases hc
            have hxb : (x.id == rec0.id) = false := beq_eq_false_iff_ne.mpr hxid
            have := List.mem_map_of_mem (fun x : CampaignRecipient =>
              if x.id == rec0.id then { x with clicked := true, clickedAt := some now } else x) hx
            simpa [hxb] using this
          · intro rid2 hr2 _ rec hrecm hreck hrecc
            cases hr2
            have heq : rec = rec0 := mem_singleton_filter _ _ _ _ hfe hrecm (by simp [hreck])
            subst heq
            have := List.mem_map_of_mem (fun x : CampaignRecipient =>
              if x.id == rec.id then { x with clicked := true, clickedAt := some now } else x) hrecm
            simpa using this
          · intro hcontra; exact absurd hcontra (by simp [hr])
  · exact ⟨rfl, rfl⟩

/-- Witness for C4 on a concrete store: first click of recipient 2. -/
theorem C4_witness :
    ∃ db2, track_click c4db "abc12345" (some 2) 50 none none =
        .ok ({ url := "https://e.com" }, db2) ∧
      db2.linkClicks = c4db.linkClicks ++
        [{ trackedLinkId := 11, recipientId := some 2, clickedAt := 50, ipAddress := none,
           userAgent := none }] ∧
      db2.trackedLinks = c4db.trackedLinks.map (fun l =>
        if l.trackingCode == "abc12345" then { l with clickCount := l.clickCount + 1 } else l) ∧
      (∀ x ∈ c4db.recipients, x.clicked = true → x ∈ db2.recipients) ∧
      (∀ rid : Int, (some 2 : Option Int) = some rid → rid ≠ 0 →
        ∀ rec ∈ c4db.recipients, (rec.id : Int) = rid → rec.clicked = false →
          { rec with clicked := true, clickedAt := some 50 } ∈ db2.recipients) ∧
      (pyTruthyInt (some 2) = false → db2.recipients = c4db.recipients) :=
  C4_click_recording.1 c4db "abc12345" (some 2) 50 none none
    { id := 11, campaignId := 1, trackingCode := "abc12345",
      originalUrl := "https://e.com", clickCount := 0 }
    (by decide) (by decide)

/-- The recipient-row effect of one send-loop iteration (the recipient
fields never depend on the uuid counter, only the rewritten body does). -/
def sendRecipientUpdate (mailer : Mailer) (customers : List Customer) (now : Nat)
    (r : CampaignRecipient) : CampaignRecipient :=
  if r.sent then r
  else
    match usableEmail (effectiveEmail customers r) with
    | none => { r with errorMessage := some "無效的 Email" }
    | some addr =>
      match mailer addr with
      | .success => { r with sent := true, sentAt := some now }
      | .failure err => { r with errorMessage := some (err.getD "發送失敗") }
      | .exn msg => { r with errorMessage := some msg }

/-- Whether this invocation counts the recipient in `sent_count`: not yet
sent, usable address, and the mailer succeeds. -/
def sendSucceedsB (mailer : Mailer) (customers : List Customer) (r : CampaignRecipient) : Bool :=
  !r.sent &&
    match usableEmail (effectiveEmail customers r) with
    | some addr => mailer addr == .success
    | none => false

/-- Whether this invocation counts the recipient in `failed_count`: not yet
sent, and either no usable address or the mailer fails or raises. -/
def sendFailsB (mailer : Mailer) (customers : List Customer) (r : CampaignRecipient) : Bool :=
  !r.sent &&
    match usableEmail (effectiveEmail customers r) with
    | none => true
    | some addr => !(mailer addr == .success)

theorem sendStepRecipient_recipient (mailer : Mailer) (uuid : Nat → String)
    (customers : List Customer) (camp : Campaign) (baseUrl : String) (now : Nat)
    (r : CampaignRecipient) (n : Nat) :
    (sendStepRecipient mailer uuid customers camp baseUrl now r n).recipient =
      sendRecipientUpdate mailer customers now r := by
  unfold sendStepRecipient sendRecipientUpdate
  by_cases hs : r.sent
  · simp [hs]
  · cases hu : usableEmail (effectiveEmail customers r) with
    | none => simp [hs, hu]
    | some addr => cases hm : mailer addr <;> simp [hs, hu, hm]

theorem sendStepRecipient_sentInc (mailer : Mailer) (uuid : Nat → String)
    (customers : List Customer) (camp : Campaign) (baseUrl : String) (now : Nat)
    (r : CampaignRecipient) (n : Nat) :
    (sendStepRecipient mailer uuid customers camp baseUrl now r n).sentInc =
      if sendSucceedsB mailer customers r then 1 else 0 := by
  unfold sendStepRecipient sendSucceedsB
  by_cases hs : r.sent
  · simp [hs]
  · cases hu : usableEmail (effectiveEmail customers r) with
    | none => simp [hs, hu]
    | some addr => cases hm : mailer addr <;> simp [hs, hu, hm]

theorem sendStepRecipient_failedInc (mailer : Mailer) (uuid : Nat → String)
    (customers : List Customer) (camp : Campaign) (baseUrl : String) (now : Nat)
    (r : CampaignRecipient) (n : Nat) :
    (sendStepRecipient mailer uuid customers camp baseUrl now r n).failedInc =
      if sendFailsB mailer customers r then 1 else 0 := by
  unfold sendStepRecipient sendFailsB
  by_cases hs : r.sent
  · simp [hs]
  · cases hu : usableEmail (effectiveEmail customers r) with
    | none => simp [hs, hu]
    | some addr => cases hm : mailer addr <;> simp [hs, hu, hm]

theorem sendLoop_recipients (mailer : Mailer) (uuid : Nat → String)
    (customers : List Customer) (camp : Campaign) (baseUrl : String) (now : Nat) :
    ∀ (rs : List CampaignRecipient) (n : Nat),
      (sendLoop mailer uuid customers camp baseUrl now rs n).recipients =
        rs.map (fun r => if r.campaignId == camp.id then
          sendRecipientUpdate mailer customers now r else r) := by
  intro rs
  induction rs with
  | nil => intro n; rfl
  | cons r rs ih =>
    intro n
    cases hcid : r.campaignId == camp.id with
    | true =>
      simp only [sendLoop, hcid, if_true, List.map_cons, ih, List.cons.injEq]
      exact ⟨sendStepRecipient_recipient mailer uuid customers camp baseUrl now r n, by trivial⟩
    | false =>
      simp only [sendLoop, hcid, Bool.false_eq_true, if_false, List.map_cons, ih]

theorem sendLoop_sentCount (mailer : Mailer) (uuid : Nat → String)
    (customers : List Customer) (camp : Campaign) (baseUrl : String) (now : Nat) :
    ∀ (rs : List CampaignRecipient) (n : Nat),
      (sendLoop mailer uuid customers camp baseUrl now rs n).sentCount =
        rs.countP (fun r => r.campaignId == camp.id && sendSucceedsB mailer customers r) := by
  intro rs
  induction rs with
  | nil => intro n; rfl
  | cons r rs ih =>
    intro n
    cases hcid : r.campaignId == camp.id with
    | true =>
      simp only [sendLoop, hcid, if_true, List.countP_cons, ih,
        sendStepRecipient_sentInc, Bool.true_and]
      cases hsb : sendSucceedsB mailer customers r <;> simp <;> omega
    | false =>
      simp only [sendLoop, hcid, Bool.false_eq_true, if_false, List.countP_cons, ih,
        Bool.false_and, if_false]
      omega

theorem sendLoop_failedCount (mailer : Mailer) (uuid : Nat → String)
    (customers : List Customer) (camp : Campaign) (baseUrl : String) (now : Nat) :
    ∀ (rs : List CampaignRecipient) (n : Nat),
      (sendLoop mailer uuid customers camp baseUrl now rs n).failedCount =
        rs.countP (fun r => r.campaignId == camp.id && sendFailsB mailer customers r) := by
  intro rs
  induction rs with
  | nil => intro n; rfl
  | cons r rs ih =>
    intro n
    cases hcid : r.campaignId == camp.id with
    | true =>
      simp only [sendLoop, hcid, if_true, List.countP_cons, ih,
        sendStepRecipient_failedInc, Bool.true_and]
      cases hsb : sendFailsB mailer customers r <;> simp <;> omega
    | false =>
      simp only [sendLoop, hcid, Bool.false_eq_true, if_false, List.countP_cons, ih,
        Bool.false_and, if_false]
      omega

theorem send_campaign_run (mailer : Mailer) (uuid : Nat → String) (db : Db)
    (cid : Nat) (baseUrl : String) (now n : Nat) (camp : Campaign)
    (hf : db.campaigns.find? (fun c => c.id == cid) = some camp)
    (hst : camp.status = "draft" ∨ camp.status = "scheduled") :
    (send_campaign mailer uuid db cid baseUrl now n).1.success = true ∧
    (send_campaign mailer uuid db cid baseUrl now n).1.sentCount =
      db.recipients.countP (fun r => r.campaignId == cid && sendSucceedsB mailer db.customers r) ∧
    (send_campaign mailer uuid db cid baseUrl now n).1.failedCount =
      db.recipients.countP (fun r => r.campaignId == cid && sendFailsB mailer db.customers r) ∧
    ((send_campaign mailer uuid db cid baseUrl now n).2.1.campaigns.find?
        (fun c => c.id == cid)).map (fun c => (c.status, c.sentCount, c.failedCount)) =
      some ("completed",
        db.recipients.countP (fun r => r.campaignId == cid && sendSucceedsB mailer db.customers r),
        db.recipients.countP (fun r => r.campaignId == cid && sendFailsB mailer db.customers r)) ∧
    (send_campaign mailer uuid db cid baseUrl now n).2.1.recipients =
      db.recipients.map (fun r => if r.campaignId == cid then
        sendRecipientUpdate mailer db.customers now r else r) := by
  have hcampid : camp.id = cid := by
    have h2 := List.find?_some hf
    simpa using h2
  have hstb : (camp.status == "draft" || camp.status == "scheduled") = true := by
    rcases hst with h | h <;> simp [h]
  unfold send_campaign
  rw [hf]
  dsimp only
  rw [hstb]
  simp only [if_true]
  refine ⟨rfl, ?_, ?_, ?_, ?_⟩
  · simp only [send_campaign_finish, send_campaign_begin]
    rw [sendLoop_sentCount, hcampid]
  · simp only [send_campaign_finish, send_campaign_begin]
    rw [sendLoop_failedCount, hcampid]
  · simp only [send_campaign_finish, send_campaign_begin]
    rw [hcampid, find?_updateFirstCampaign_self]
    · rw [find?_updateFirstCampaign_self]
      · rw [hf]
        simp only [Option.map_map, Option.map_some]
        rw [sendLoop_sentCount, sendLoop_failedCount, hcampid]
        rfl
      · intro c; rfl
    · intro c; rfl
  · simp only [send_campaign_finish, send_campaign_begin]
    rw [sendLoop_recipients, hcampid]

/-- C1: for every campaign in status `draft` or `scheduled`, `send_campaign`
reports success and processes every not-yet-sent recipient of the campaign
independently: a recipient with no usable email, a mailer failure, or a
raised mailer exception is recorded as failed with an `error_message` (and
its `sent` flag untouched) while the loop continues, a successful one is
marked `sent`; afterwards the campaign's status is `completed` — never a
failed status — and the stored `sent_count`/`failed_count` are exactly the
number of succeeding resp. failing recipients of this run, however many
failed. -/
theorem C1_send_isolates_failures (mailer : Mailer) (uuid : Nat → String) (db : Db)
    (cid : Nat) (baseUrl : String) (now n : Nat) (camp : Campaign)
    (hf : db.campaigns.find? (fun c => c.id == cid) = some camp)
    (hst : camp.status = "draft" ∨ camp.status = "scheduled") :
    (send_campaign mailer uuid db cid baseUrl now n).1.success = true ∧
    (send_campaign mailer uuid db cid baseUrl now n).1.sentCount =
      db.recipients.countP (fun r => r.campaignId == cid && sendSucceedsB mailer db.customers r) ∧
    (send_campaign mailer uuid db cid baseUrl now n).1.failedCount =
      db.recipients.countP (fun r => r.campaignId == cid && sendFailsB mailer db.customers r) ∧
    ((send_campaign mailer uuid db cid baseUrl now n).2.1.campaigns.find?
        (fun c => c.id == cid)).map (fun c => (c.status, c.sentCount, c.failedCount)) =
      some ("completed",
        db.recipients.countP (fun r => r.campaignId == cid && sendSucceedsB mailer db.customers r),
        db.recipients.countP (fun r => r.campaignId == cid && sendFailsB mailer db.customers r)) ∧
    (send_campaign mailer uuid db cid baseUrl now n).2.1.recipients =
      db.recipients.map (fun r => if r.campaignId == cid then
        sendRecipientUpdate mailer db.customers now r else r) ∧
    (∀ r : CampaignRecipient, sendFailsB mailer db.customers r = true →
      (sendRecipientUpdate mailer db.customers now r).errorMessage.isSome = true ∧
      (sendRecipientUpdate mailer db.customers now r).sent = r.sent) ∧
    (∀ r : CampaignRecipient, sendSucceedsB mailer db.customers r = true →
      (sendRecipientUpdate mailer db.customers now r).sent = true ∧
      (sendRecipientUpdate mailer db.customers now r).sentAt = some now) := by
  obtain ⟨h1, h2, h3, h4, h5⟩ :=
    send_campaign_run mailer uuid db cid baseUrl now n camp hf hst
  refine ⟨h1, h2, h3, h4, h5, ?_, ?_⟩
  · intro r hfail
    unfold sendFailsB at hfail
    unfold sendRecipientUpdate
    cases hs : r.sent with
    | true => simp [hs] at hfail
    | false =>
      cases hu : usableEmail (effectiveEmail db.customers r) with
      | none => simp [hs, hu]
      | some addr =>
        cases hm : mailer addr with
        | success => simp [hs, hu, hm] at hfail
        | failure err => simp [hs, hu, hm]
        | exn msg => simp [hs, hu, hm]
  · intro r hsucc
    unfold sendSucceedsB at hsucc
    unfold sendRecipientUpdate
    cases hs : r.sent with
    | true => simp [hs] at hsucc
    | false =>
      cases hu : usableEmail (effectiveEmail db.customers r) with
      | none => simp [hs, hu] at hsucc
      | some addr =>
        cases hm : mailer addr with
        | success => simp [hs, hu, hm]
        | failure err => simp [hs, hu, hm] at hsucc
        | exn msg => simp [hs, hu, hm] at hsucc

/-- C10: a resumed send skips recipients already marked `sent` — they are
passed through unchanged and excluded from both counters — and the stored
`sent_count`/`failed_count` are overwritten with the counts of that
invocation alone (the counting predicates require `sent = false` at entry,
so recipients delivered by earlier invocations are never included). -/
theorem C10_resume_skips_and_overwrites :
    (∀ (mailer : Mailer) (customers : List Customer) (now : Nat) (r : CampaignRecipient),
      r.sent = true → sendRecipientUpdate mailer customers now r = r) ∧
    (∀ (mailer : Mailer) (customers : List Customer) (r : CampaignRecipient),
      r.sent = true →
        sendSucceedsB mailer customers r = false ∧ sendFailsB mailer customers r = false) ∧
    (∀ (mailer : Mailer) (uuid : Nat → String) (db : Db) (cid : Nat) (baseUrl : String)
        (now n : Nat) (camp : Campaign),
      db.campaigns.find? (fun c => c.id == cid) = some camp →
      camp.status = "draft" ∨ camp.status = "scheduled" →
      ((send_campaign mailer uuid db cid baseUrl now n).2.1.campaigns.find?
          (fun c => c.id == cid)).map (fun c => (c.sentCount, c.failedCount)) =
        some
          (db.recipients.countP (fun r => r.campaignId == cid &&
            sendSucceedsB mailer db.customers r),
           db.recipients.countP (fun r => r.campaignId == cid &&
            sendFailsB mailer db.customers r)) ∧
      (send_campaign mailer uuid db cid baseUrl now n).2.1.recipients =
        db.recipients.map (fun r => if r.campaignId == cid then
          sendRecipientUpdate mailer db.customers now r else r)) := by
  refine ⟨?_, ?_, ?_⟩
  · intro mailer customers now r hs
    unfold sendRecipientUpdate
    rw [hs]
    simp
  · intro mailer customers r hs
    unfold sendSucceedsB sendFailsB
    rw [hs]
    simp
  · intro mailer uuid db cid baseUrl now n camp hf hst
    obtain ⟨_, _, _, h4, h5⟩ := send_campaign_run mailer uuid db cid baseUrl now n camp hf hst
    refine ⟨?_, h5⟩
    have h6 := congrArg (Option.map (fun t : String × Nat × Nat => t.2)) h4
    rw [Option.map_map] at h6
    exact h6

def c1mailer : Mailer := fun _ => .success

def c1uuid : Nat → String := fun k => toString k ++ "-0123456789abcdef"

def c1camp : Campaign :=
  { id := 1, name := "n", subject := "s",
    content := "hi \x7b\x7bname\x7d\x7d <a href=\"https://e.com\">x</a>",
    status := "draft", totalRecipients := 2 }

def c1db : Db :=
  { campaigns := [c1camp],
    recipients := [{ id := 1, campaignId := 1 },
                   { id := 2, campaignId := 1, email := some "ok@x.com", name := some "Cara" }] }

/-- Witness for C1: a draft campaign with one no-email recipient and one
valid recipient whose send succeeds ends with `sent_count = 1`,
`failed_count = 1` and status `completed`. -/
theorem C1_witness :
    (c1db.campaigns.find? (fun c => c.id == 1) = some c1camp) ∧
    (c1db.recipients.countP
        (fun r => r.campaignId == 1 && sendSucceedsB c1mailer c1db.customers r) = 1 ∧
      c1db.recipients.countP
        (fun r => r.campaignId == 1 && sendFailsB c1mailer c1db.customers r) = 1) ∧
    ((send_campaign c1mailer c1uuid c1db 1 "http://b" 9 0).1.success = true ∧
      (send_campaign c1mailer c1uuid c1db 1 "http://b" 9 0).1.sentCount =
        c1db.recipients.countP
          (fun r => r.campaignId == 1 && sendSucceedsB c1mailer c1db.customers r) ∧
      (send_campaign c1mailer c1uuid c1db 1 "http://b" 9 0).1.failedCount =
        c1db.recipients.countP
          (fun r => r.campaignId == 1 && sendFailsB c1mailer c1db.customers r) ∧
      ((send_campaign c1mailer c1uuid c1db 1 "http://b" 9 0).2.1.campaigns.find?
          (fun c => c.id == 1)).map (fun c => (c.status, c.sentCount, c.failedCount)) =
        some ("completed",
          c1db.recipients.countP
            (fun r => r.campaignId == 1 && sendSucceedsB c1mailer c1db.customers r),
          c1db.recipients.countP
            (fun r => r.campaignId == 1 && sendFailsB c1mailer c1db.customers r)) ∧
      (send_campaign c1mailer c1uuid c1db 1 "http://b" 9 0).2.1.recipients =
        c1db.recipients.map (fun r => if r.campaignId == 1 then
          sendRecipientUpdate c1mailer c1db.customers 9 r else r) ∧
      (∀ r : CampaignRecipient, sendFailsB c1mailer c1db.customers r = true →
        (sendRecipientUpdate c1mailer c1db.customers 9 r).errorMessage.isSome = true ∧
        (sendRecipientUpdate c1mailer c1db.customers 9 r).sent = r.sent) ∧
      (∀ r : CampaignRecipient, sendSucceedsB c1mailer c1db.customers r = true →
        (sendRecipientUpdate c1mailer c1db.customers 9 r).sent = true ∧
        (sendRecipientUpdate c1mailer c1db.customers 9 r).sentAt = some 9)) :=
  ⟨by decide, by decide,
   C1_send_isolates_failures c1mailer c1uuid c1db 1 "http://b" 9 0 c1camp (by decide) (.inl rfl)⟩

def c10camp : Campaign :=
  { id := 1, name := "n", subject := "s", content := "hello",
    status := "scheduled", totalRecipients := 2, sentCount := 1, failedCount := 0 }

def c10rec1 : CampaignRecipient :=
  { id := 1, campaignId := 1, email := some "a@b.com", sent := true, sentAt := some 3 }

def c10db : Db :=
  { campaigns := [c10camp],
    recipients := [c10rec1, { id := 2, campaignId := 1, email := some "b@b.com" }] }

/-- Witness for C10: a resumed send over one already-sent and one fresh
recipient stores counters (1, 0) of this invocation only and leaves the
already-sent row untouched. -/
theorem C10_witness :
    (c10db.campaigns.find? (fun c => c.id == 1) = some c10camp) ∧
    sendRecipientUpdate c1mailer c10db.customers 9 c10rec1 = c10rec1 ∧
    (c10db.recipients.countP
        (fun r => r.campaignId == 1 && sendSucceedsB c1mailer c10db.customers r) = 1 ∧
      c10db.recipients.countP
        (fun r => r.campaignId == 1 && sendFailsB c1mailer c10db.customers r) = 0) ∧
    (((send_campaign c1mailer c1uuid c10db 1 "http://b" 9 0).2.1.campaigns.find?
        (fun c => c.id == 1)).map (fun c => (c.sentCount, c.failedCount)) =
      some
        (c10db.recipients.countP
          (fun r => r.campaignId == 1 && sendSucceedsB c1mailer c10db.customers r),
         c10db.recipients.countP
          (fun r => r.campaignId == 1 && sendFailsB c1mailer c10db.customers r)) ∧
     (send_campaign c1mailer c1uuid c10db 1 "http://b" 9 0).2.1.recipients =
       c10db.recipients.map (fun r => if r.campaignId == 1 then
         sendRecipientUpdate c1mailer c10db.customers 9 r else r)) :=
  ⟨by decide,
   C10_resume_skips_and_overwrites.1 c1mailer c10db.customers 9 c10rec1 rfl,
   by decide,
   C10_resume_skips_and_overwrites.2.2 c1mailer c1uuid c10db 1 "http://b" 9 0 c10camp
     (by decide) (.inr rfl)⟩

/-- The customer keys of the recipient rows of a campaign. -/
def rowCustomerIds (rows : List CampaignRecipient) : List Nat :=
  rows.filterMap (fun r => r.customerId)

/-- The bare emails of the recipient rows keyed by email rather than by
customer. -/
def rowBareEmails (rows : List CampaignRecipient) : List String :=
  rows.filterMap (fun r => match r.customerId with | none => r.email | some _ => none)

/-- The loop invariant of `create_campaign`'s accumulators: rows are keyed
by the `added_customer_ids` / `added_emails` sets, both key lists are
duplicate-free, and the `total_recipients` counter counts the rows. -/
def accInv (acc : AddAcc) : Prop :=
  (∀ i ∈ rowCustomerIds acc.rows, i ∈ acc.addedC) ∧
  (rowCustomerIds acc.rows).Nodup ∧
  (∀ e ∈ rowBareEmails acc.rows, e ∈ acc.addedE) ∧
  (rowBareEmails acc.rows).Nodup ∧
  acc.total = acc.rows.length

theorem nodup_append_one {α : Type} (l : List α) (a : α) (h : l.Nodup) (ha : a ∉ l) :
    (l ++ [a]).Nodup :=
  h.append (List.nodup_singleton a) (List.disjoint_singleton.mpr ha)

theorem rowCustomerIds_append (rows rows2 : List CampaignRecipient) :
    rowCustomerIds (rows ++ rows2) = rowCustomerIds rows ++ rowCustomerIds rows2 :=
  List.filterMap_append rows rows2 _

theorem rowBareEmails_append (rows rows2 : List CampaignRecipient) :
    rowBareEmails (rows ++ rows2) = rowBareEmails rows ++ rowBareEmails rows2 :=
  List.filterMap_append rows rows2 _

theorem accInv_addRowC (acc : AddAcc) (cid i : Nat) (hinv : accInv acc)
    (hnew : i ∉ acc.addedC) (es : List String) :
    accInv { acc with
      rows := acc.rows ++ [{ id := acc.rid, campaignId := cid, customerId := some i }],
      addedC := i :: acc.addedC, addedE := es ++ acc.addedE,
      total := acc.total + 1, rid := acc.rid + 1 } := by
  obtain ⟨h1, h2, h3, h4, h5⟩ := hinv
  have hids : rowCustomerIds (acc.rows ++
      [{ id := acc.rid, campaignId := cid, customerId := some i }]) =
      rowCustomerIds acc.rows ++ [i] := by
    rw [rowCustomerIds_append]; rfl
  have hbare : rowBareEmails (acc.rows ++
      [{ id := acc.rid, campaignId := cid, customerId := some i }]) =
      rowBareEmails acc.rows := by
    rw [rowBareEmails_append]; simp [rowBareEmails]
  refine ⟨?_, ?_, ?_, ?_, ?_⟩
  · intro j hj
    rw [hids] at hj
    rcases List.mem_append.mp hj with hj | hj
    · exact List.mem_cons_of_mem i (h1 j hj)
    · rw [List.mem_singleton.mp hj]
      exact List.mem_cons_self i acc.addedC
  · rw [hids]
    exact nodup_append_one _ _ h2 (fun hi => hnew (h1 i hi))
  · intro e he
    rw [hbare] at he
    exact List.mem_append.mpr (.inr (h3 e he))
  · rw [hbare]; exact h4
  · simpa using h5

theorem accInv_addRowE (acc : AddAcc) (cid : Nat) (email : String) (hinv : accInv acc)
    (hnew : email ∉ acc.addedE) :
    accInv { acc with
      rows := acc.rows ++ [{ id := acc.rid, campaignId := cid, email := some email,
                             name := some (emailLocalPart email) }],
      addedE := email :: acc.addedE, total := acc.total + 1, rid := acc.rid + 1 } := by
  obtain ⟨h1, h2, h3, h4, h5⟩ := hinv
  have hids : rowCustomerIds (acc.rows ++
      [{ id := acc.rid, campaignId := cid, email := some email,
         name := some (emailLocalPart email) }]) = rowCustomerIds acc.rows := by
    rw [rowCustomerIds_append]; simp [rowCustomerIds]
  have hbare : rowBareEmails (acc.rows ++
      [{ id := acc.rid, campaignId := cid, email := some email,
         name := some (emailLocalPart email) }]) =
      rowBareEmails acc.rows ++ [email] := by
    rw [rowBareEmails_append]; rfl
  refine ⟨?_, ?_, ?_, ?_, ?_⟩
  · intro j hj; rw [hids] at hj; exact h1 j hj
  · rw [hids]; exact h2
  · intro e he
    rw [hbare] at he
    rcases List.mem_append.mp he with he | he
    · exact List.mem_cons_of_mem email (h3 e he)
    · rw [List.mem_singleton.mp he]
      exact List.mem_cons_self email acc.addedE
  · rw [hbare]
    exact nodup_append_one _ _ h4 (fun he => hnew (h3 email he))
  · simpa using h5

theorem addByCustomer_inv (cid : Nat) :
    ∀ (cs : List Customer) (acc : AddAcc), accInv acc → accInv (addByCustomer cid cs acc) := by
  intro cs
  induction cs with
  | nil => exact fun acc h => h
  | cons c cs ih =>
    intro acc hinv
    unfold addByCustomer
    cases hc : acc.addedC.contains c.id with
    | true => exact ih acc hinv
    | false =>
      simp only [Bool.false_eq_true, if_false]
      refine ih _ ?_
      have hnew : c.id ∉ acc.addedC := by
        intro hmem
        simp at hc
        exact hc hmem
      simpa using accInv_addRowC acc cid c.id hinv hnew []

theorem addByEmail_inv (customers : List Customer) (cid : Nat) :
    ∀ (es : List String) (acc res : AddAcc), accInv acc →
      addByEmail customers cid es acc = .ok res → accInv res := by
  intro es
  induction es with
  | nil =>
    intro acc res hinv h
    cases h
    exact hinv
  | cons e es ih =>
    intro acc res hinv h
    unfold addByEmail at h
    dsimp only at h
    cases hg : (pyLower (pyStrip e) ≠ "" && !acc.addedE.contains (pyLower (pyStrip e))) with
    | false =>
      rw [hg] at h
      simp only [Bool.false_eq_true, if_false] at h
      exact ih acc res hinv h
    | true =>
      rw [hg] at h
      simp only [if_true] at h
      have hnewE : pyLower (pyStrip e) ∉ acc.addedE := by
        intro hmem
        rcases (Bool.and_eq_true _ _).mp hg with ⟨_, h2⟩
        simp at h2
        exact h2 hmem
      cases hs : scalarOneOrNone (customers.filter (fun c => c.email == some (pyLower (pyStrip e)))) with
      | error m => rw [hs] at h; cases h
      | ok oc =>
        rw [hs] at h
        cases oc with
        | some c =>
          dsimp only at h
          cases hcc : acc.addedC.contains c.id with
          | true =>
            rw [hcc] at h
            simp only [if_true] at h
            exact ih acc res hinv h
          | false =>
            rw [hcc] at h
            simp only [Bool.false_eq_true, if_false] at h
            refine ih _ res ?_ h
            have hnewC : c.id ∉ acc.addedC := by
              intro hmem
              simp at hcc
              exact hcc hmem
            simpa using accInv_addRowC acc cid c.id hinv hnewC [pyLower (pyStrip e)]
        | none =>
          dsimp only at h
          refine ih _ res ?_ h
          exact accInv_addRowE acc cid (pyLower (pyStrip e)) hinv hnewE

theorem create_campaign_acc_inv (db : Db) (ctf psf : String) (customerIds : List Nat)
    (additionalEmails : List String) (useFilter : Bool) (cid : Nat) (acc : AddAcc)
    (h : create_campaign_acc db ctf psf customerIds additionalEmails useFilter cid = .ok acc) :
    accInv acc := by
  have hinv0 : accInv { rid := newId (db.recipients.map (fun r => r.id)) } := by
    refine ⟨?_, ?_, ?_, ?_, rfl⟩ <;> simp [rowCustomerIds, rowBareEmails]
  have hinv1 : accInv (createStep1 db ctf psf useFilter cid
      { rid := newId (db.recipients.map (fun r => r.id)) }) := by
    unfold createStep1
    split
    · exact addByCustomer_inv cid _ _ hinv0
    · exact hinv0
  have hinv2 : accInv (createStep2 db customerIds cid (createStep1 db ctf psf useFilter cid
      { rid := newId (db.recipients.map (fun r => r.id)) })) := by
    unfold createStep2
    split
    · exact addByCustomer_inv cid _ _ hinv1
    · exact hinv1
  unfold create_campaign_acc createStep3 at h
  split at h
  · exact addByEmail_inv db.customers cid additionalEmails _ acc hinv2 h
  · cases h
    exact hinv2

/-- C2 (amended): for every campaign produced by `create_campaign`, no two
of its recipient rows share a customer id, no two of its bare-email rows
share a normalized email, and the stored `total_recipients` equals the
number of recipient rows created.  What the claim gets wrong is the scope
of the email deduplication: recipients resolved to **different customers**
may share a normalized effective email, because stored customer emails are
never deduplicated against each other (see the counterexample, where two
customers with the same address each become a recipient). -/
theorem C2_create_campaign_dedup (db : Db) (name subject content ctf psf : String)
    (customerIds : List Nat) (additionalEmails : List String) (useFilter : Bool)
    (camp : Campaign) (rows : List CampaignRecipient) (db2 : Db)
    (h : create_campaign db name subject content ctf psf customerIds additionalEmails useFilter
       = .ok (camp, rows, db2)) :
    (rowCustomerIds rows).Nodup ∧
    (rowBareEmails rows).Nodup ∧
    camp.totalRecipients = rows.length ∧
    db2.recipients = db.recipients ++ rows ∧
    db2.campaigns = db.campaigns ++ [camp] := by
  unfold create_campaign at h
  dsimp only at h
  cases hacc : create_campaign_acc db ctf psf customerIds additionalEmails useFilter
      (newId (db.campaigns.map (fun c => c.id))) with
  | error m => rw [hacc] at h; cases h
  | ok acc3 =>
    rw [hacc] at h
    dsimp only at h
    have hinv := create_campaign_acc_inv db ctf psf customerIds additionalEmails useFilter
      _ acc3 hacc
    have h3 := Except.ok.inj h
    have hcamp := congrArg (fun t : Campaign × List CampaignRecipient × Db => t.1) h3
    have hrows := congrArg (fun t : Campaign × List CampaignRecipient × Db => t.2.1) h3
    have hdb := congrArg (fun t : Campaign × List CampaignRecipient × Db => t.2.2) h3
    dsimp only at hcamp hrows hdb
    refine ⟨?_, ?_, ?_, ?_, ?_⟩
    · rw [← hrows]; exact hinv.2.1
    · rw [← hrows]; exact hinv.2.2.2.1
    · rw [← hcamp, ← hrows]; exact hinv.2.2.2.2
    · rw [← hdb, ← hrows]
    · rw [← hdb, ← hcamp]

def c2db : Db :=
  { customers := [⟨1, "Alice", some "a@b.com"⟩, ⟨2, "Bob", some "a@b.com"⟩] }

/-- Counterexample for C2 as stated: two stored customers share the email
`a@b.com`; creating an all/all filtered campaign over them produces two
recipient rows with distinct customer ids but the same normalized
effective email, with `total_recipients = 2` — so recipients of the same
campaign *can* share a normalized email. -/
theorem C2_counterexample :
    Except.map
        (fun t : Campaign × List CampaignRecipient × Db =>
          (t.2.1.map (fun r => normalizedEffectiveEmail c2db.customers r),
           t.2.1.map (fun r => r.customerId),
           t.1.totalRecipients))
        (create_campaign c2db "n" "s" "c" "all" "all" [] [] true) =
      .ok ([some "a@b.com", some "a@b.com"], [some 1, some 2], 2) := by decide

def c2wdb : Db := { customers := [⟨1, "Alice", some "a@b.com"⟩] }

/-- Witness for C2 on a concrete creation that exercises all three dedup
paths: an explicit customer id, an ad-hoc email resolving to that same
customer (skipped), and an ad-hoc email given twice in different
case/spacing (added once, as a bare recipient). -/
theorem C2_witness :
    (create_campaign c2wdb "n" "s" "c" "all" "all" [1] ["a@b.com ", "C@d.com", "c@d.com"] false
        = .ok
          ({ id := 1, name := "n", subject := "s", content := "c", totalRecipients := 2 },
           [{ id := 1, campaignId := 1, customerId := some 1 },
            { id := 2, campaignId := 1, email := some "c@d.com", name := some "c" }],
           { customers := [⟨1, "Alice", some "a@b.com"⟩],
             campaigns := [{ id := 1, name := "n", subject := "s", content := "c",
                             totalRecipients := 2 }],
             recipients := [{ id := 1, campaignId := 1, customerId := some 1 },
                            { id := 2, campaignId := 1, email := some "c@d.com",
                              name := some "c" }] })) ∧
    ((rowCustomerIds
        [{ id := 1, campaignId := 1, customerId := some 1 },
         { id := 2, campaignId := 1, email := some "c@d.com", name := some "c" }]).Nodup ∧
      (rowBareEmails
        [{ id := 1, campaignId := 1, customerId := some 1 },
         { id := 2, campaignId := 1, email := some "c@d.com", name := some "c" }]).Nodup ∧
      ({ id := 1, name := "n", subject := "s", content := "c",
         totalRecipients := 2 } : Campaign).totalRecipients =
        [{ id := 1, campaignId := 1, customerId := some 1 },
         ({ id := 2, campaignId := 1, email := some "c@d.com", name := some "c" } :
           CampaignRecipient)].length ∧
      ({ customers := [⟨1, "Alice", some "a@b.com"⟩],
         campaigns := [{ id := 1, name := "n", subject := "s", content := "c",
                         totalRecipients := 2 }],
         recipients := [{ id := 1, campaignId := 1, customerId := some 1 },
                        { id := 2, campaignId := 1, email := some "c@d.com",
                          name := some "c" }] } : Db).recipients =
        c2wdb.recipients ++
          [{ id := 1, campaignId := 1, customerId := some 1 },
           { id := 2, campaignId := 1, email := some "c@d.com", name := some "c" }] ∧
      ({ customers := [⟨1, "Alice", some "a@b.com"⟩],
         campaigns := [{ id := 1, name := "n", subject := "s", content := "c",
                         totalRecipients := 2 }],
         recipients := [{ id := 1, campaignId := 1, customerId := some 1 },
                        { id := 2, campaignId := 1, email := some "c@d.com",
                          name := some "c" }] } : Db).campaigns =
        c2wdb.campaigns ++
          [{ id := 1, name := "n", subject := "s", content := "c", totalRecipients := 2 }]) :=
  ⟨by decide,
   C2_create_campaign_dedup c2wdb "n" "s" "c" "all" "all" [1]
     ["a@b.com ", "C@d.com", "c@d.com"] false
     { id := 1, name := "n", subject := "s", content := "c", totalRecipients := 2 }
     [{ id := 1, campaignId := 1, customerId := some 1 },
      { id := 2, campaignId := 1, email := some "c@d.com", name := some "c" }]
     { customers := [⟨1, "Alice", some "a@b.com"⟩],
       campaigns := [{ id := 1, name := "n", subject := "s", content := "c",
                       totalRecipients := 2 }],
       recipients := [{ id := 1, campaignId := 1, customerId := some 1 },
                      { id := 2, campaignId := 1, email := some "c@d.com",
                        name := some "c" }] }
     (by decide)⟩

theorem length_dropWhile_le (p : Char → Bool) (l : List Char) :
    (l.dropWhile p).length ≤ l.length := by
  induction l with
  | nil => simp
  | cons c cs ih =>
    rw [List.dropWhile_cons]
    split
    · exact Nat.le_succ_of_le ih
    · simp

theorem matchHref_length (s : List Char) (url : String) (consumed rest : List Char)
    (h : matchHref s = some (url, consumed, rest)) : rest.length < s.length := by
  unfold matchHref at h
  split at h
  · rename_i q s1
    split at h
    · cases hdrop : List.dropWhile (fun c => !isQuote c) s1 with
      | nil =>
        rw [hdrop] at h
        exact absurd h (by simp)
      | cons q2 rest2 =>
        rw [hdrop] at h
        dsimp only at h
        split at h
        · cases h
        · have hinj := Option.some.inj h
          have hr2 : rest2 = rest :=
            congrArg (fun t : String × List Char × List Char => t.2.2) hinj
          have h1 : (q2 :: rest2).length ≤ s1.length := by
            rw [← hdrop]
            exact length_dropWhile_le _ s1
          subst hr2
          simp only [List.length_cons] at h1 ⊢
          omega
    · cases h
  · cases h

theorem processLoopF_fuel (uuid : Nat → String) (cid rid : Nat) (b : String) :
    ∀ (f1 f2 : Nat) (s : List Char) (n : Nat), s.length ≤ f1 → s.length ≤ f2 →
      processLoopF uuid cid rid b f1 s n = processLoopF uuid cid rid b f2 s n := by
  intro f1
  induction f1 with
  | zero =>
    intro f2 s n h1 h2
    have hs : s = [] := List.length_eq_zero.mp (Nat.le_zero.mp h1)
    subst hs
    cases f2 <;> rfl
  | succ f1 ih =>
    intro f2 s n h1 h2
    cases f2 with
    | zero =>
      have hs : s = [] := List.length_eq_zero.mp (Nat.le_zero.mp h2)
      subst hs
      rfl
    | succ f2 =>
      cases hm : matchHref s with
      | some t =>
        obtain ⟨url, consumed, rest⟩ := t
        have hlt := matchHref_length s url consumed rest hm
        simp only [processLoopF, hm]
        rw [ih f2 rest n (by omega) (by omega), ih f2 rest (n + 1) (by omega) (by omega)]
      | none =>
        cases s with
        | nil => rfl
        | cons c cs =>
          simp only [processLoopF, hm]
          rw [ih f2 cs n (by simpa using h1) (by simpa using h2)]

theorem processLoop_nil (uuid : Nat → String) (cid rid : Nat) (b : String) (n : Nat) :
    processLoop uuid cid rid b [] n = ([], [], n) := rfl

theorem processLoop_eq_match (uuid : Nat → String) (cid rid : Nat) (b : String)
    (s : List Char) (n : Nat) (url : String) (consumed rest : List Char)
    (hm : matchHref s = some (url, consumed, rest)) :
    processLoop uuid cid rid b s n =
      if isSkipUrl url then
        (consumed ++ (processLoop uuid cid rid b rest n).1,
          (processLoop uuid cid rid b rest n).2)
      else
        ((hrefReplacement b (generate_tracking_code (uuid n)) rid).data ++
            (processLoop uuid cid rid b rest (n + 1)).1,
          ⟨generate_tracking_code (uuid n), url, cid⟩ ::
            (processLoop uuid cid rid b rest (n + 1)).2.1,
          (processLoop uuid cid rid b rest (n + 1)).2.2) := by
  have hlt := matchHref_length s url consumed rest hm
  cases hsl : s.length with
  | zero => omega
  | succ k =>
    unfold processLoop
    rw [hsl]
    simp only [processLoopF, hm]
    rw [processLoopF_fuel uuid cid rid b k rest.length rest n (by omega) (by omega),
      processLoopF_fuel uuid cid rid b k rest.length rest (n + 1) (by omega) (by omega)]

theorem processLoop_cons_none (uuid : Nat → String) (cid rid : Nat) (b : String)
    (c : Char) (cs : List Char) (n : Nat) (hm : matchHref (c :: cs) = none) :
    processLoop uuid cid rid b (c :: cs) n =
      (c :: (processLoop uuid cid rid b cs n).1, (processLoop uuid cid rid b cs n).2) := by
  unfold processLoop
  simp only [List.length_cons, processLoopF, hm]

theorem takeWhile_stop (p : Char → Bool) :
    ∀ (l1 : List Char) (x : Char) (l2 : List Char),
      (∀ c ∈ l1, p c = true) → p x = false →
      (l1 ++ x :: l2).takeWhile p = l1 ∧ (l1 ++ x :: l2).dropWhile p = x :: l2 := by
  intro l1
  induction l1 with
  | nil =>
    intro x l2 _ hx
    simp [List.takeWhile_cons, List.dropWhile_cons, hx]
  | cons c cs ih =>
    intro x l2 hall hx
    have hc : p c = true := hall c (List.mem_cons_self c cs)
    have hcs : ∀ d ∈ cs, p d = true := fun d hd => hall d (List.mem_cons_of_mem c hd)
    obtain ⟨ht, hd⟩ := ih x l2 hcs hx
    constructor
    · simp [List.takeWhile_cons, hc, ht]
    · simp [List.dropWhile_cons, hc, hd]

/-- A double-quoted href attribute as the regex matches it. -/
def hrefChunk (url : String) : List Char :=
  'h' :: 'r' :: 'e' :: 'f' :: '=' :: '"' :: (url.data ++ ['"'])

theorem matchHref_cons6 (s1 : List Char) :
    matchHref ('h' :: 'r' :: 'e' :: 'f' :: '=' :: '"' :: s1) =
      (match s1.dropWhile (fun c => !isQuote c) with
       | q2 :: rest =>
         if (s1.takeWhile (fun c => !isQuote c)).isEmpty then none
         else some (String.mk (s1.takeWhile (fun c => !isQuote c)),
           'h' :: 'r' :: 'e' :: 'f' :: '=' :: '"' :: (s1.takeWhile (fun c => !isQuote c) ++ [q2]),
           rest)
       | [] => none) := rfl

theorem matchHref_hrefChunk (url : String) (rest : List Char) (h1 : url.data ≠ [])
    (h2 : ∀ c ∈ url.data, isQuote c = false) :
    matchHref (hrefChunk url ++ rest) = some (url, hrefChunk url, rest) := by
  have hall : ∀ c ∈ url.data, (fun c => !isQuote c) c = true := by
    intro c hc
    simp [h2 c hc]
  have hstop : (fun c => !isQuote c) '"' = false := by simp [show isQuote '"' = true from rfl]
  have hsplit := takeWhile_stop (fun c => !isQuote c) url.data '"' rest hall hstop
  have hne : url.data.isEmpty = false := by
    cases hd : url.data with
    | nil => exact absurd hd h1
    | cons a l => rfl
  show matchHref ('h' :: 'r' :: 'e' :: 'f' :: '=' :: '"' :: ((url.data ++ ['"']) ++ rest)) = _
  rw [List.append_assoc, List.singleton_append, matchHref_cons6, hsplit.2, hsplit.1, hne]
  rfl

theorem processLoop_skip_chunk (uuid : Nat → String) (cid rid : Nat) (b : String)
    (url : String) (rest : List Char) (n : Nat) (h1 : url.data ≠ [])
    (h2 : ∀ c ∈ url.data, isQuote c = false) (hskip : isSkipUrl url = true) :
    processLoop uuid cid rid b (hrefChunk url ++ rest) n =
      (hrefChunk url ++ (processLoop uuid cid rid b rest n).1,
        (processLoop uuid cid rid b rest n).2) := by
  rw [processLoop_eq_match uuid cid rid b _ n url (hrefChunk url) rest
    (matchHref_hrefChunk url rest h1 h2)]
  rw [if_pos hskip]

theorem processLoop_track_chunk (uuid : Nat → String) (cid rid : Nat) (b : String)
    (url : String) (rest : List Char) (n : Nat) (h1 : url.data ≠ [])
    (h2 : ∀ c ∈ url.data, isQuote c = false) (hskip : isSkipUrl url = false) :
    processLoop uuid cid rid b (hrefChunk url ++ rest) n =
      ((hrefReplacement b (generate_tracking_code (uuid n)) rid).data ++
          (processLoop uuid cid rid b rest (n + 1)).1,
        ⟨generate_tracking_code (uuid n), url, cid⟩ ::
          (processLoop uuid cid rid b rest (n + 1)).2.1,
        (processLoop uuid cid rid b rest (n + 1)).2.2) := by
  rw [processLoop_eq_match uuid cid rid b _ n url (hrefChunk url) rest
    (matchHref_hrefChunk url rest h1 h2)]
  rw [if_neg (by simp [hskip])]

theorem processLoop_codes (uuid : Nat → String) (cid rid : Nat) (b : String) :
    ∀ (N : Nat) (s : List Char) (n : Nat), s.length ≤ N →
      (processLoop uuid cid rid b s n).2.2 =
        n + (processLoop uuid cid rid b s n).2.1.length ∧
      (processLoop uuid cid rid b s n).2.1.map (fun l => l.trackingCode) =
        (List.range (processLoop uuid cid rid b s n).2.1.length).map
          (fun i => generate_tracking_code (uuid (n + i))) ∧
      (∀ l ∈ (processLoop uuid cid rid b s n).2.1, l.campaignId = cid) := by
  intro N
  induction N with
  | zero =>
    intro s n hs
    have h0 : s = [] := List.length_eq_zero.mp (Nat.le_zero.mp hs)
    subst h0
    rw [processLoop_nil]
    exact ⟨rfl, rfl, by intro l hl; cases hl⟩
  | succ N ih =>
    intro s n hs
    cases hm : matchHref s with
    | none =>
      cases s with
      | nil =>
        rw [processLoop_nil]
        exact ⟨rfl, rfl, by intro l hl; cases hl⟩
      | cons c cs =>
        rw [processLoop_cons_none uuid cid rid b c cs n hm]
        exact ih cs n (by simpa using hs)
    | some t =>
      obtain ⟨url, consumed, rest⟩ := t
      have hlt := matchHref_length s url consumed rest hm
      have hrest : rest.length ≤ N := by omega
      rw [processLoop_eq_match uuid cid rid b s n url consumed rest hm]
      by_cases hskip : isSkipUrl url = true
      · rw [if_pos hskip]
        exact ih rest n hrest
      · rw [if_neg hskip]
        obtain ⟨ih1, ih2, ih3⟩ := ih rest (n + 1) hrest
        refine ⟨?_, ?_, ?_⟩
        · dsimp only
          rw [List.length_cons, ih1]
          omega
        · dsimp only
          rw [List.map_cons, ih2, List.length_cons, List.range_succ_eq_map, List.map_cons,
            List.map_map]
          have hfun : ((fun i => generate_tracking_code (uuid (n + i))) ∘ Nat.succ) =
              (fun i => generate_tracking_code (uuid (n + 1 + i))) := by
            funext i
            show generate_tracking_code (uuid (n + Nat.succ i)) = _
            have : n + Nat.succ i = n + 1 + i := by omega
            rw [this]
          rw [hfun]
          rfl
        · dsimp only
          intro l hl
          rcases List.mem_cons.mp hl with hl | hl
          · rw [hl]
          · exact ih3 l hl

theorem generate_tracking_code_length (s : String) :
    (generate_tracking_code s).length = min 8 s.length := by
  show (s.data.take 8).length = min 8 s.data.length
  simp [List.length_take]

theorem process_content_codes (uuid : Nat → String) (content : String) (cid rid : Nat)
    (b : String) (n : Nat) :
    (process_content_with_tracking uuid content cid rid b n).2.2 =
      n + (process_content_with_tracking uuid content cid rid b n).2.1.length ∧
    (process_content_with_tracking uuid content cid rid b n).2.1.map
        (fun l => l.trackingCode) =
      (List.range (process_content_with_tracking uuid content cid rid b n).2.1.length).map
        (fun i => generate_tracking_code (uuid (n + i))) ∧
    ∀ l ∈ (process_content_with_tracking uuid content cid rid b n).2.1, l.campaignId = cid :=
  processLoop_codes uuid cid rid b content.data.length content.data n le_rfl

theorem process_content_code_mem (uuid : Nat → String) (content : String) (cid rid : Nat)
    (b : String) (n : Nat) (l : TrackedLinkData)
    (hl : l ∈ (process_content_with_tracking uuid content cid rid b n).2.1) :
    ∃ i, i < (process_content_with_tracking uuid content cid rid b n).2.1.length ∧
      l.trackingCode = generate_tracking_code (uuid (n + i)) := by
  have h2 := (process_content_codes uuid content cid rid b n).2.1
  have hmem : l.trackingCode ∈
      (process_content_with_tracking uuid content cid rid b n).2.1.map
        (fun l => l.trackingCode) :=
    List.mem_map_of_mem _ hl
  rw [h2] at hmem
  obtain ⟨i, hi, hc⟩ := List.mem_map.mp hmem
  exact ⟨i, List.mem_range.mp hi, hc.symm⟩

/-- The claim's concrete html: a mailto anchor, a fragment anchor and one
navigable https anchor. -/
def c3html : String :=
  "<a href=\"mailto:x@y.com\">A</a><a href=\"#top\">B</a><a href=\"https://example.com\">C</a>"

/-- A concrete uuid stream for the claim's scenario: position k yields a
distinct string of length at least 8, as a fresh uuid4 would. -/
def c3uuid (k : Nat) : String := "uuid-" ++ toString k ++ "-xyzzy"

/-- C3: the rewriter (a) passes an href whose url starts with one of the skip
prefixes mailto:, #, tel:, javascript: through unchanged, emitting no
TrackedLink creation and consuming no uuid; (b) replaces any other href by
href="(base)/t/(code)?r=(recipient id)" with the code generated from the next
uuid of the stream, emitting exactly one TrackedLink creation that carries
that code, the original url and the campaign id; (c) over a whole run,
advances the uuid stream by exactly one position per emitted creation, takes
the emitted codes from consecutive stream positions in order, and stamps
every creation with the campaign id and (whenever the uuid strings have at
least 8 characters, as real uuid4 strings do) an 8-character code; (d) gives
two consecutive runs for two different recipients pairwise distinct tracking
codes whenever the code generator is injective on the stream positions the
two runs consume; and (e) on the claim's concrete html (a mailto anchor, a
fragment anchor and an https anchor) for recipients 1 and 2, leaves the
mailto and fragment hrefs verbatim and rewrites only the https href,
producing the two distinct codes uuid-0-x and uuid-1-x. -/
theorem C3_rewrite_policy :
    (∀ (uuid : Nat → String) (cid rid : Nat) (b url : String) (rest : List Char) (n : Nat),
        url.data ≠ [] → (∀ c ∈ url.data, isQuote c = false) → isSkipUrl url = true →
        processLoop uuid cid rid b (hrefChunk url ++ rest) n =
          (hrefChunk url ++ (processLoop uuid cid rid b rest n).1,
            (processLoop uuid cid rid b rest n).2)) ∧
    (∀ (uuid : Nat → String) (cid rid : Nat) (b url : String) (rest : List Char) (n : Nat),
        url.data ≠ [] → (∀ c ∈ url.data, isQuote c = false) → isSkipUrl url = false →
        processLoop uuid cid rid b (hrefChunk url ++ rest) n =
          ((hrefReplacement b (generate_tracking_code (uuid n)) rid).data ++
              (processLoop uuid cid rid b rest (n + 1)).1,
            ⟨generate_tracking_code (uuid n), url, cid⟩ ::
              (processLoop uuid cid rid b rest (n + 1)).2.1,
            (processLoop uuid cid rid b rest (n + 1)).2.2)) ∧
    (∀ (uuid : Nat → String) (content : String) (cid rid : Nat) (b : String) (n : Nat),
        (process_content_with_tracking uuid content cid rid b n).2.2 =
          n + (process_content_with_tracking uuid content cid rid b n).2.1.length ∧
        (process_content_with_tracking uuid content cid rid b n).2.1.map
            (fun l => l.trackingCode) =
          (List.range (process_content_with_tracking uuid content cid rid b n).2.1.length).map
            (fun i => generate_tracking_code (uuid (n + i))) ∧
        ((∀ k, 8 ≤ (uuid k).length) →
          ∀ l ∈ (process_content_with_tracking uuid content cid rid b n).2.1,
            l.campaignId = cid ∧ l.trackingCode.length = 8)) ∧
    (∀ (uuid : Nat → String) (content : String) (cid rid1 rid2 : Nat) (b : String) (n : Nat),
        (∀ i j,
            i < (process_content_with_tracking uuid content cid rid2 b
                (process_content_with_tracking uuid content cid rid1 b n).2.2).2.2 →
            j < (process_content_with_tracking uuid content cid rid2 b
                (process_content_with_tracking uuid content cid rid1 b n).2.2).2.2 →
            generate_tracking_code (uuid i) = generate_tracking_code (uuid j) → i = j) →
        ∀ l1 ∈ (process_content_with_tracking uuid content cid rid1 b n).2.1,
        ∀ l2 ∈ (process_content_with_tracking uuid content cid rid2 b
            (process_content_with_tracking uuid content cid rid1 b n).2.2).2.1,
          l1.trackingCode ≠ l2.trackingCode) ∧
    (process_content_with_tracking c3uuid c3html 7 1 "https://crm.test" 0 =
        ("<a href=\"mailto:x@y.com\">A</a><a href=\"#top\">B</a><a href=\"https://crm.test/t/uuid-0-x?r=1\">C</a>",
          [⟨"uuid-0-x", "https://example.com", 7⟩], 1) ∧
      process_content_with_tracking c3uuid c3html 7 2 "https://crm.test" 1 =
        ("<a href=\"mailto:x@y.com\">A</a><a href=\"#top\">B</a><a href=\"https://crm.test/t/uuid-1-x?r=2\">C</a>",
          [⟨"uuid-1-x", "https://example.com", 7⟩], 2) ∧
      (process_content_with_tracking c3uuid c3html 7 1 "https://crm.test" 0).2.1.map
          (fun l => l.trackingCode) ≠
        (process_content_with_tracking c3uuid c3html 7 2 "https://crm.test" 1).2.1.map
          (fun l => l.trackingCode)) := by
  refine ⟨?_, ?_, ?_, ?_, ?_⟩
  · intro uuid cid rid b url rest n h1 h2 hskip
    exact processLoop_skip_chunk uuid cid rid b url rest n h1 h2 hskip
  · intro uuid cid rid b url rest n h1 h2 hskip
    exact processLoop_track_chunk uuid cid rid b url rest n h1 h2 hskip
  · intro uuid content cid rid b n
    obtain ⟨hctr, hcodes, hcid⟩ := process_content_codes uuid content cid rid b n
    refine ⟨hctr, hcodes, ?_⟩
    intro h8 l hl
    refine ⟨hcid l hl, ?_⟩
    obtain ⟨i, _, hc⟩ := process_content_code_mem uuid content cid rid b n l hl
    rw [hc, generate_tracking_code_length]
    exact Nat.min_eq_left (h8 (n + i))
  · intro uuid content cid rid1 rid2 b n hinj l1 hl1 l2 hl2 heq
    obtain ⟨i, hi, hc1⟩ := process_content_code_mem uuid content cid rid1 b n l1 hl1
    obtain ⟨j, hj, hc2⟩ := process_content_code_mem uuid content cid rid2 b
      (process_content_with_tracking uuid content cid rid1 b n).2.2 l2 hl2
    have hm1 := (process_content_codes uuid content cid rid1 b n).1
    have hm2 := (process_content_codes uuid content cid rid2 b
      (process_content_with_tracking uuid content cid rid1 b n).2.2).1
    have hgen : generate_tracking_code (uuid (n + i)) =
        generate_tracking_code (uuid
          ((process_content_with_tracking uuid content cid rid1 b n).2.2 + j)) := by
      rw [← hc1, ← hc2, heq]
    have hij := hinj (n + i)
      ((process_content_with_tracking uuid content cid rid1 b n).2.2 + j)
      (by omega) (by omega) hgen
    omega
  · exact ⟨by decide, by decide, by decide⟩

end CRM
